import Mathlib

/-!
Verification of the WatchDogs-Security-City orchestration core.

Shallow embedding of the backend's result-combination, caching, circuit-breaker,
resilient-execution and multi-frame context logic, translated from
`src/backend` (Python).  Times are modelled as integers, Python dictionaries
over the field universe that the code reads/writes are modelled as records of
optional values (`none` = key absent, `some .null` = key present with value
`None`), and external library calls (hashing, the LLM invocation, image
decoding) are modelled as function parameters.
-/

set_option autoImplicit false

namespace WatchDogs

/-- A Python value as it occurs in the agent-result dictionaries:
a string, a boolean, or `None`. -/
inductive PyVal where
  | str (s : String)
  | bool (b : Bool)
  | null
deriving DecidableEq, Repr

/-- An agent-result dictionary, restricted to the keys the embedded code
reads or writes (`agent`, `status`, `analysis`, `confidence`, `error`,
`has_text`).  `none` models an absent key; `some .null` models a key that is
present with value `None`. -/
structure ADict where
  agent : Option PyVal := none
  status : Option PyVal := none
  analysis : Option PyVal := none
  confidence : Option PyVal := none
  error : Option PyVal := none
  has_text : Option PyVal := none
deriving DecidableEq, Repr

/-- The empty dictionary `{}`. -/
def ADict.empty : ADict := {}

/-- Python truthiness of a dictionary: `{}` is falsy, any non-empty dict is
truthy. -/
def ADict.truthy (d : ADict) : Bool := ¬ (d = ADict.empty)

/- ## Cache (`utils/cache_utils.py`)

The module-level `OrderedDict` `_cache` is modelled as an association list in
insertion/recency order (head = oldest, i.e. next to be evicted), and
`_cache_ttl` as an association list from key to expiry time. -/

/-- Dict lookup `d[k]` / membership `k in d` on the association-list model. -/
def assocLookup {α : Type} (k : String) : List (String × α) → Option α
  | [] => none
  | p :: rest => if p.1 = k then some p.2 else assocLookup k rest

/-- Remove the entry with the given key from an association list
(`del d[k]`; identity when the key is absent). -/
def assocErase {α : Type} (k : String) (l : List (String × α)) : List (String × α) :=
  l.filter (fun p => ¬ (p.1 = k))

/-- Python dict assignment `d[k] = v`: update in place when the key exists
(keeping its position), append otherwise. -/
def assocSet {α : Type} (k : String) (v : α) (l : List (String × α)) : List (String × α) :=
  if (assocLookup k l).isSome then
    l.map (fun p => if p.1 = k then (k, v) else p)
  else
    l ++ [(k, v)]

/-- `OrderedDict.move_to_end(k)`: move the entry with key `k` to the
most-recent end.  Identity when the key is absent (the source only calls it on
present keys). -/
def moveToEnd {α : Type} (k : String) (l : List (String × α)) : List (String × α) :=
  match assocLookup k l with
  | some v => assocErase k l ++ [(k, v)]
  | none => l

/-- The state of the module-level cache: `_cache` (recency-ordered entries)
and `_cache_ttl` (expiry times). -/
structure CacheState where
  entries : List (String × ADict) := []
  ttl : List (String × Int) := []
deriving DecidableEq, Repr

/-- `get_cached_result(cache_key, ttl_seconds)`: return the cached value when
present and unexpired (refreshing its recency), remove it when expired,
return `none` on a miss.  `now` models `time.time()`; the `ttl_seconds`
parameter of the source is never read by the function, so it is omitted; the
returned dictionary is a copy in the source, modelled by value semantics
here. -/
def get_cached_result (now : Int) (cache_key : String) (c : CacheState) :
    Option ADict × CacheState :=
  match assocLookup cache_key c.entries with
  | none => (none, c)
  | some v =>
    match assocLookup cache_key c.ttl with
    | some expiry =>
      if now > expiry then
        (none, ⟨assocErase cache_key c.entries, assocErase cache_key c.ttl⟩)
      else
        (some v, ⟨moveToEnd cache_key c.entries, c.ttl⟩)
    | none => (some v, ⟨moveToEnd cache_key c.entries, c.ttl⟩)

/-- `set_cached_result(cache_key, result, ttl_seconds)`: when the cache has
reached `maxSize` (the module constant `MAX_CACHE_SIZE`, 500 in the source),
evict the oldest entry first; then store a copy of the result, record its
expiry, and mark it most recently used. -/
def set_cached_result (maxSize : Nat) (now ttl_seconds : Int) (cache_key : String)
    (result : ADict) (c : CacheState) : CacheState :=
  let c1 : CacheState :=
    if maxSize ≤ c.entries.length then
      match c.entries.head? with
      | some (oldest_key, _) =>
        ⟨assocErase oldest_key c.entries, assocErase oldest_key c.ttl⟩
      | none => c
    else c
  let entries := assocSet cache_key result c1.entries
  let ttl := assocSet cache_key (now + ttl_seconds) c1.ttl
  ⟨moveToEnd cache_key entries, ttl⟩

/-- Python `"," in s`: the payload contains a comma. -/
def hasComma (s : String) : Bool := s.data.contains ','

/-- Character-level worker for `splitComma`. -/
def splitCommaChars : List Char → List (List Char)
  | [] => [[]]
  | c :: rest =>
    if c = ',' then [] :: splitCommaChars rest
    else
      match splitCommaChars rest with
      | h :: t => (c :: h) :: t
      | [] => [[c]]

/-- Python `s.split(",")` (e.g. `"a,".split(",") = ["a", ""]`,
`"".split(",") = [""]`). -/
def splitComma (s : String) : List String := (splitCommaChars s.data).map String.mk

/-- `get_image_hash(image_base64)`: strip the data-URI marker by taking
`split(",")[1]` when the payload contains a comma, then hash.  `sha256hex`
models `hashlib.sha256(data.encode()).hexdigest()` (external library). -/
def get_image_hash (sha256hex : String → String) (image_base64 : String) : String :=
  let image_data :=
    if hasComma image_base64 then (splitComma image_base64).getD 1 ""
    else image_base64
  (sha256hex image_data).take 16

/-- `get_cache_key(image_base64, agent_name, context)`: the key is
`agent:imageHash:contextHash` where `md5hex` models
`hashlib.md5(context.encode()).hexdigest()` (external library) and an empty
context hashes to the literal `none`. -/
def get_cache_key (sha256hex md5hex : String → String)
    (image_base64 agent_name context : String) : String :=
  let image_hash := get_image_hash sha256hex image_base64
  let context_hash := if ¬ (context = "") then (md5hex context).take 8 else "none"
  agent_name ++ ":" ++ image_hash ++ ":" ++ context_hash

/- ## Circuit breaker (`utils/circuit_breaker.py`) -/

/-- The three circuit-breaker states. -/
inductive CircuitState where
  | closed
  | opened
  | halfOpen
deriving DecidableEq, Repr

/-- The exceptions the embedded code distinguishes.  `breakerOpen` is
`CircuitBreakerOpenError`; `customTimeout` is `utils.timeout_utils.TimeoutError`
(a plain `Exception` subclass, distinct from the builtin); `builtinTimeout`
is the builtin `TimeoutError` (retryable, and the only one caught by the
`except TimeoutError` handler in `VisionAgent.analyze`); `retryable` covers
the other members of `RETRYABLE_EXCEPTIONS` (rate limiting, API errors,
connection failures); `other` is any other `Exception`. -/
inductive PyExn where
  | breakerOpen
  | customTimeout (msg : String)
  | builtinTimeout (msg : String)
  | retryable (msg : String)
  | other (msg : String)
deriving DecidableEq, Repr

/-- `str(e)` as used when formatting error dictionaries. -/
def PyExn.message : PyExn → String
  | .breakerOpen => "Circuit breaker is OPEN"
  | .customTimeout m => m
  | .builtinTimeout m => m
  | .retryable m => m
  | .other m => m

/-- Membership in `RETRYABLE_EXCEPTIONS` (`utils/retry_utils.py`): the builtin
`TimeoutError` and the transient upstream errors retry; the custom timeout and
`CircuitBreakerOpenError` do not. -/
def PyExn.isRetryable : PyExn → Bool
  | .builtinTimeout _ => true
  | .retryable _ => true
  | _ => false

/-- The `CircuitBreaker` object: configuration (`failure_threshold`,
`recovery_timeout`) plus mutable state. -/
structure CircuitBreaker where
  failure_threshold : Nat := 5
  recovery_timeout : Int := 60
  state : CircuitState := .closed
  failure_count : Nat := 0
  last_failure_time : Option Int := none
  success_count : Nat := 0
deriving DecidableEq, Repr

/-- A freshly constructed breaker (`CircuitBreaker(failure_threshold, recovery_timeout)`). -/
def CircuitBreaker.init (failure_threshold : Nat) (recovery_timeout : Int) : CircuitBreaker :=
  { failure_threshold := failure_threshold, recovery_timeout := recovery_timeout }

/-- `_should_attempt_recovery`: true when a last failure is recorded and at
least `recovery_timeout` has elapsed since. -/
def CircuitBreaker._should_attempt_recovery (cb : CircuitBreaker) (now : Int) : Bool :=
  match cb.last_failure_time with
  | none => false
  | some t => cb.recovery_timeout ≤ now - t

/-- `_on_success`: reset the failure counter; in half-open state count
successes and close after the second; an (unexpected) success while open
closes immediately. -/
def CircuitBreaker._on_success (cb : CircuitBreaker) : CircuitBreaker :=
  let cb := { cb with failure_count := 0 }
  match cb.state with
  | .halfOpen =>
    let sc := cb.success_count + 1
    if 2 ≤ sc then { cb with success_count := sc, state := .closed }
    else { cb with success_count := sc }
  | .opened => { cb with state := .closed }
  | .closed => cb

/-- `_on_failure`: bump the failure counter and record the failure time; a
failure while half-open reopens immediately, otherwise open once the counter
reaches the threshold. -/
def CircuitBreaker._on_failure (cb : CircuitBreaker) (now : Int) : CircuitBreaker :=
  let cb := { cb with failure_count := cb.failure_count + 1, last_failure_time := some now }
  if cb.state = .halfOpen then { cb with state := .opened }
  else if cb.failure_threshold ≤ cb.failure_count then { cb with state := .opened }
  else cb

instance {ε α : Type} [DecidableEq ε] [DecidableEq α] : DecidableEq (Except ε α) := fun x y =>
  match x, y with
  | .ok a, .ok b =>
    if h : a = b then isTrue (h ▸ rfl) else isFalse fun hc => h (Except.ok.inj hc)
  | .error a, .error b =>
    if h : a = b then isTrue (h ▸ rfl) else isFalse fun hc => h (Except.error.inj hc)
  | .ok _, .error _ => isFalse fun hc => Except.noConfusion hc
  | .error _, .ok _ => isFalse fun hc => Except.noConfusion hc

/-- Outcome of one `CircuitBreaker.call`: the value returned or exception
raised, the breaker's new state, and whether the wrapped function was
actually invoked. -/
structure CallOutcome where
  result : Except PyExn ADict
  breaker : CircuitBreaker
  invoked : Bool
deriving DecidableEq, Repr

/-- `CircuitBreaker.call(func, ...)`.  `func` is the behaviour the wrapped
function would exhibit if invoked (its value or the exception it raises);
`expected_exception` is `Exception` in the source, so every modelled
exception from `func` counts as a failure. -/
def CircuitBreaker.call (cb : CircuitBreaker) (now : Int) (func : Except PyExn ADict) :
    CallOutcome :=
  let gate : Option CircuitBreaker :=
    if cb.state = .opened then
      if cb._should_attempt_recovery now then
        some { cb with state := .halfOpen, success_count := 0 }
      else none
    else some cb
  match gate with
  | none => ⟨.error .breakerOpen, cb, false⟩
  | some cb1 =>
    match func with
    | .ok v => ⟨.ok v, cb1._on_success, true⟩
    | .error e => ⟨.error e, cb1._on_failure now, true⟩

/-- A sequence of calls whose wrapped function raises the listed exceptions at
the listed times, threaded through one shared breaker. -/
def runFailures (cb : CircuitBreaker) (calls : List (Int × PyExn)) : CircuitBreaker :=
  calls.foldl (fun b c => (b.call c.1 (.error c.2)).breaker) cb

/- ## Pydantic models (`models/agent_results.py`)

Each `XResult(**d)` constructor is modelled as a validator returning the
`model_dump()` dictionary on success and `none` when Pydantic would raise:
`status` and `analysis` are required `str` fields; `agent` is a `str` with a
per-model default; `confidence` and `error` are `Optional[str]` defaulting to
`None`; `OCRResult.has_text` is a `bool` defaulting to `False`.  Extra keys
are ignored (Pydantic's default `extra` behaviour). -/

/-- A required `str` field: present and a string. -/
def isStrField (v : Option PyVal) : Bool :=
  match v with
  | some (.str _) => true
  | _ => false

/-- A `str` field with a default: absent or a string. -/
def isDefStrField (v : Option PyVal) : Bool :=
  match v with
  | none => true
  | some (.str _) => true
  | _ => false

/-- An `Optional[str]` field: absent, `None`, or a string. -/
def isOptStrField (v : Option PyVal) : Bool :=
  match v with
  | none => true
  | some .null => true
  | some (.str _) => true
  | _ => false

/-- A `bool` field with a default: absent or a boolean. -/
def isDefBoolField (v : Option PyVal) : Bool :=
  match v with
  | none => true
  | some (.bool _) => true
  | _ => false

/-- `VisionResult(**d).model_dump()`, or `none` when validation raises. -/
def VisionResult.validate (d : ADict) : Option ADict :=
  if isStrField d.status ∧ isStrField d.analysis ∧ isDefStrField d.agent ∧
      isOptStrField d.confidence ∧ isOptStrField d.error then
    some { agent := some (d.agent.getD (.str "vision")), status := d.status,
           analysis := d.analysis, confidence := some (d.confidence.getD .null),
           error := some (d.error.getD .null), has_text := none }
  else none

/-- `OCRResult(**d).model_dump()`, or `none` when validation raises. -/
def OCRResult.validate (d : ADict) : Option ADict :=
  if isStrField d.status ∧ isStrField d.analysis ∧ isDefStrField d.agent ∧
      isOptStrField d.confidence ∧ isOptStrField d.error ∧ isDefBoolField d.has_text then
    some { agent := some (d.agent.getD (.str "ocr")), status := d.status,
           analysis := d.analysis, confidence := some (d.confidence.getD .null),
           error := some (d.error.getD .null),
           has_text := some (d.has_text.getD (.bool false)) }
  else none

/-- `DetectionResult(**d).model_dump()`, or `none` when validation raises. -/
def DetectionResult.validate (d : ADict) : Option ADict :=
  if isStrField d.status ∧ isStrField d.analysis ∧ isDefStrField d.agent ∧
      isOptStrField d.confidence ∧ isOptStrField d.error then
    some { agent := some (d.agent.getD (.str "detection")), status := d.status,
           analysis := d.analysis, confidence := some (d.confidence.getD .null),
           error := some (d.error.getD .null), has_text := none }
  else none

/-- Modelled from the spec: `GeolocationResult` is imported by
`result_combiner.py` and re-exported by `models/__init__.py`, but its
declaration is not among the sources.  Per the spec's `AgentResult` shape
(required status and analysis text, optional confidence and error detail) and
mirroring the sibling models, validation requires string `status` and
`analysis` with the remaining fields optional. -/
def GeolocationResult.validate (d : ADict) : Option ADict :=
  if isStrField d.status ∧ isStrField d.analysis ∧ isDefStrField d.agent ∧
      isOptStrField d.confidence ∧ isOptStrField d.error then
    some { agent := some (d.agent.getD (.str "geolocation")), status := d.status,
           analysis := d.analysis, confidence := some (d.confidence.getD .null),
           error := some (d.error.getD .null), has_text := none }
  else none

/- ## Result combination (`agents/coordinator/result_combiner.py`) -/

/-- The LangGraph analysis state (`coordinator/state.py`): the input payload,
context, selected agent kinds, and the four per-agent result slots. -/
structure AnalysisState where
  image_base64 : String := ""
  context : String := ""
  agents_to_run : List String := ["vision", "ocr", "detection", "geolocation"]
  vision_result : Option ADict := none
  ocr_result : Option ADict := none
  detection_result : Option ADict := none
  geolocation_result : Option ADict := none
deriving DecidableEq, Repr

/-- The JSON final report: timestamp, overall status, and the `agents`
mapping in construction order. -/
structure FinalJson where
  timestamp : String
  status : String
  agents : List (String × ADict)
deriving DecidableEq, Repr

/-- The dump of `VisionResult(agent="vision", status="skipped", analysis="Agent was skipped")`. -/
def visionSkippedDump : ADict :=
  { agent := some (.str "vision"), status := some (.str "skipped"),
    analysis := some (.str "Agent was skipped"), confidence := some .null,
    error := some .null, has_text := none }

/-- The dump of `OCRResult(agent="ocr", status="skipped", analysis="Agent was skipped", has_text=False)`. -/
def ocrSkippedDump : ADict :=
  { agent := some (.str "ocr"), status := some (.str "skipped"),
    analysis := some (.str "Agent was skipped"), confidence := some .null,
    error := some .null, has_text := some (.bool false) }

/-- The dump of `DetectionResult(agent="detection", status="skipped", analysis="Agent was skipped")`. -/
def detectionSkippedDump : ADict :=
  { agent := some (.str "detection"), status := some (.str "skipped"),
    analysis := some (.str "Agent was skipped"), confidence := some .null,
    error := some .null, has_text := none }

/-- `ResultCombiner._build_fallback_report`: raw-field extraction used when
Pydantic validation of the set fails.  Note the `geolocation` entry carries
only `status` and `analysis` keys, and absent fields default to `"unknown"`
(status/confidence) or `""` (analysis), never to `"skipped"`. -/
def _build_fallback_report (now : String) (vision ocr detection geolocation : ADict) :
    FinalJson :=
  { timestamp := now, status := "success",
    agents :=
      [("vision",
        { agent := none, status := some (vision.status.getD (.str "unknown")),
          analysis := some (vision.analysis.getD (.str "")),
          confidence := some (vision.confidence.getD (.str "unknown")),
          error := none, has_text := none }),
       ("ocr",
        { agent := none, status := some (ocr.status.getD (.str "unknown")),
          analysis := some (ocr.analysis.getD (.str "")),
          confidence := some (ocr.confidence.getD (.str "unknown")),
          error := none, has_text := some (ocr.has_text.getD (.bool false)) }),
       ("detection",
        { agent := none, status := some (detection.status.getD (.str "unknown")),
          analysis := some (detection.analysis.getD (.str "")),
          confidence := some (detection.confidence.getD (.str "unknown")),
          error := none, has_text := none }),
       ("geolocation",
        { agent := none,
          status := some (if geolocation.truthy then geolocation.status.getD (.str "unknown")
                          else .str "skipped"),
          analysis := some (if geolocation.truthy then geolocation.analysis.getD (.str "")
                            else .str ""),
          confidence := none, error := none, has_text := none })] }

/-- `ResultCombiner.combine_results`, restricted to the JSON report it places
under `final_report.json` (the parallel human-readable text report is not the
subject of any claim).  `now` models `datetime.utcnow().isoformat()`.

Each result slot is read with `state.get(...) or` the empty dict; the Pydantic
validation of all four results happens inside one `try`, falling back to
`_build_fallback_report` when any of them raises.  `AgentResults` is then
built from the vision/ocr/detection models — the `geolocation=` keyword has no
corresponding field on `AgentResults` and is silently ignored by Pydantic, so
the validated report has no `geolocation` entry. -/
def combine_results_json (now : String) (st : AnalysisState) : FinalJson :=
  let vision := st.vision_result.getD ADict.empty
  let ocr := st.ocr_result.getD ADict.empty
  let detection := st.detection_result.getD ADict.empty
  let geolocation := st.geolocation_result.getD ADict.empty
  let vr? : Option (Option ADict) :=
    if vision.truthy then (VisionResult.validate vision).map some else some none
  let or? : Option (Option ADict) :=
    if ocr.truthy then (OCRResult.validate ocr).map some else some none
  let dr? : Option (Option ADict) :=
    if detection.truthy then (DetectionResult.validate detection).map some else some none
  let gr? : Option (Option ADict) :=
    if geolocation.truthy then (GeolocationResult.validate geolocation).map some else some none
  match vr?, or?, dr?, gr? with
  | some vr, some orr, some dr, some _gr =>
    let agents :=
      match vr, orr, dr with
      | some v, some o, some d => [("vision", v), ("ocr", o), ("detection", d)]
      | v?, o?, d? =>
        [("vision", v?.getD visionSkippedDump), ("ocr", o?.getD ocrSkippedDump),
         ("detection", d?.getD detectionSkippedDump)]
    { timestamp := now, status := "success", agents := agents }
  | _, _, _, _ => _build_fallback_report now vision ocr detection geolocation

/- ## Vision agent (`agents/vision_agent.py`)

The LLM invocation is external; its behaviour on attempt `i` is supplied as
`exts i : Except PyExn String` (the text it returns, or the exception it
raises).  `times i` models the `time.time()` reading during attempt `i`.
The decorator stack on `_analyze_with_protection` applies, innermost first,
`agent_retry` (3 attempts on retryable exceptions, reraising), `with_timeout`
(raising the custom `TimeoutError` when the whole wrapped call overruns,
modelled by the `hangs` flag), and the transparent metrics tracker. -/

/-- The success dictionary built by `_analyze_internal` from the LLM text. -/
def visionSuccessDict (text : String) : ADict :=
  { agent := some (.str "vision"), status := some (.str "success"),
    analysis := some (.str text), confidence := some (.str "high") }

/-- The error dictionary returned when `CircuitBreakerOpenError` is caught in
`_analyze_with_protection`. -/
def circuitOpenErrorDict : ADict :=
  { agent := some (.str "vision"), status := some (.str "error"),
    error := some (.str "Circuit breaker is open - service temporarily unavailable"),
    analysis := some (.str "Vision analysis unavailable") }

/-- The dictionary returned by `analyze`'s `except TimeoutError` handler
(which catches only the builtin `TimeoutError`). -/
def visionTimeoutDict (msg : String) : ADict :=
  { agent := some (.str "vision"), status := some (.str "timeout"),
    error := some (.str msg), analysis := some (.str "Vision analysis timed out") }

/-- The dictionary returned by `analyze`'s generic `except Exception` handler. -/
def visionFailedDict (msg : String) : ADict :=
  { agent := some (.str "vision"), status := some (.str "error"),
    error := some (.str msg), analysis := some (.str "Vision analysis failed") }

/-- `_analyze_internal`: invoke the LLM once; on success wrap its text in the
success dictionary (the prompt construction does not affect the result
shape). -/
def _analyze_internal (ext : Except PyExn String) : Except PyExn ADict :=
  match ext with
  | .ok text => .ok (visionSuccessDict text)
  | .error e => .error e

/-- Outcome of the protected call: the returned dictionary or escaping
exception, the breaker afterwards, and how many times the underlying LLM
call was invoked. -/
structure BodyResult where
  result : Except PyExn ADict
  breaker : Option CircuitBreaker
  extCalls : Nat
deriving Repr

/-- The body of `_analyze_with_protection`: route the call through the shared
breaker when one is configured, converting `CircuitBreakerOpenError` into the
synthetic error dictionary; without a breaker, call directly. -/
def _analyze_with_protection_body (cb? : Option CircuitBreaker) (now : Int)
    (ext : Except PyExn String) : BodyResult :=
  match cb? with
  | some cb =>
    let co := cb.call now (_analyze_internal ext)
    match co.result with
    | .error .breakerOpen =>
      ⟨.ok circuitOpenErrorDict, some co.breaker, if co.invoked then 1 else 0⟩
    | r => ⟨r, some co.breaker, if co.invoked then 1 else 0⟩
  | none =>
    ⟨_analyze_internal ext, none, 1⟩

/-- `agent_retry` (tenacity, `stop_after_attempt`, `reraise=True`): run the
body up to the given number of attempts, retrying only on
`RETRYABLE_EXCEPTIONS`, reraising the last exception otherwise. -/
def retryRun (times : Nat → Int) (exts : Nat → Except PyExn String) :
    Nat → Nat → Option CircuitBreaker → BodyResult
  | 0, _, cb? => ⟨.error (.other "retry exhausted"), cb?, 0⟩
  | remaining + 1, idx, cb? =>
    let b := _analyze_with_protection_body cb? (times idx) (exts idx)
    match b.result with
    | .ok v => ⟨.ok v, b.breaker, b.extCalls⟩
    | .error e =>
      if e.isRetryable ∧ 1 ≤ remaining then
        let rest := retryRun times exts remaining (idx + 1) b.breaker
        ⟨rest.result, rest.breaker, b.extCalls + rest.extCalls⟩
      else ⟨.error e, b.breaker, b.extCalls⟩

/-- `_analyze_with_protection` with its decorator stack.  When the call
overruns its budget (`hangs`), `with_timeout` raises the custom
`TimeoutError`; the abandoned daemon worker keeps running in the source, so
the breaker mutations and call count of the attempts are retained. -/
def _analyze_with_protection (hangs : Bool) (max_attempts : Nat)
    (cb? : Option CircuitBreaker) (times : Nat → Int)
    (exts : Nat → Except PyExn String) : BodyResult :=
  let b := retryRun times exts max_attempts 0 cb?
  if hangs then
    ⟨.error (.customTimeout "_analyze_with_protection timed out"), b.breaker, b.extCalls⟩
  else b

/-- Result of `VisionAgent.analyze`: the returned dictionary (the function
never raises), the cache and breaker afterwards, and the number of underlying
LLM invocations. -/
structure AnalyzeResult where
  result : ADict
  cache : CacheState
  breaker : Option CircuitBreaker
  extCalls : Nat
deriving Repr

/-- The miss path of `VisionAgent.analyze`: run the protected call, cache the
raw result when its status is `success`, return its Pydantic dump (the raw
result when validation fails), and convert escaped exceptions into
timeout/error dictionaries.  Note the `except TimeoutError` handler catches
only the builtin `TimeoutError`; the custom timeout raised by `with_timeout`
falls through to the generic handler with status `error`. -/
def analyzeMissPath (cacheEnabled : Bool) (maxCacheSize : Nat) (cacheTTL : Int)
    (hangs : Bool) (maxAttempts : Nat) (now : Int) (times : Nat → Int)
    (exts : Nat → Except PyExn String) (cache_key : String)
    (cache1 : CacheState) (breaker? : Option CircuitBreaker) : AnalyzeResult :=
  match _analyze_with_protection hangs maxAttempts breaker? times exts with
  | ⟨.ok result, cbOut, nCalls⟩ =>
    let cache2 :=
      if cacheEnabled ∧ result.status = some (.str "success") then
        set_cached_result maxCacheSize now cacheTTL cache_key result cache1
      else cache1
    let final :=
      match VisionResult.validate result with
      | some dump => dump
      | none => result
    ⟨final, cache2, cbOut, nCalls⟩
  | ⟨.error (.builtinTimeout m), cbOut, nCalls⟩ =>
    ⟨visionTimeoutDict m, cache1, cbOut, nCalls⟩
  | ⟨.error e, cbOut, nCalls⟩ =>
    ⟨visionFailedDict e.message, cache1, cbOut, nCalls⟩

/-- `VisionAgent.analyze`: check the cache first (a truthy cached dictionary
is returned as-is, with no external call), otherwise run the protected
analysis.  Total by construction: every failure mode yields a dictionary. -/
def VisionAgent.analyze (sha256hex md5hex : String → String)
    (cacheEnabled : Bool) (maxCacheSize : Nat) (cacheTTL : Int)
    (hangs : Bool) (maxAttempts : Nat) (now : Int) (times : Nat → Int)
    (exts : Nat → Except PyExn String) (cache : CacheState)
    (breaker? : Option CircuitBreaker) (image_base64 context : String) : AnalyzeResult :=
  let cache_key := get_cache_key sha256hex md5hex image_base64 "vision" context
  let hit : Option ADict × CacheState :=
    if cacheEnabled then get_cached_result now cache_key cache else (none, cache)
  match hit.1 with
  | some cached =>
    if cached.truthy then ⟨cached, hit.2, breaker?, 0⟩
    else
      analyzeMissPath cacheEnabled maxCacheSize cacheTTL hangs maxAttempts now times exts
        cache_key hit.2 breaker?
  | none =>
    analyzeMissPath cacheEnabled maxCacheSize cacheTTL hangs maxAttempts now times exts
      cache_key hit.2 breaker?

/- ## Agent runners and coordinator
(`agents/coordinator/agent_runners.py`, `coordinator.py`)

Each runner skips its agent when the kind is not in `agents_to_run` (writing
`None` into the state) and otherwise records the agent's dictionary; the
runner's `except` clause is unreachable in the embedding because the agent
functions are total.  The per-agent analysis (and, for geolocation, the
enrichment service) is supplied as a function parameter. -/

/-- `AgentRunners.run_vision_agent`. -/
def run_vision_agent (analyzeFn : String → String → ADict) (st : AnalysisState) :
    Option ADict :=
  if "vision" ∈ st.agents_to_run then some (analyzeFn st.image_base64 st.context) else none

/-- `AgentRunners.run_ocr_agent`. -/
def run_ocr_agent (analyzeFn : String → String → ADict) (st : AnalysisState) :
    Option ADict :=
  if "ocr" ∈ st.agents_to_run then some (analyzeFn st.image_base64 st.context) else none

/-- `AgentRunners.run_detection_agent`. -/
def run_detection_agent (analyzeFn : String → String → ADict) (st : AnalysisState) :
    Option ADict :=
  if "detection" ∈ st.agents_to_run then some (analyzeFn st.image_base64 st.context) else none

/-- `AgentRunners.run_geolocation_agent` (analysis plus enrichment). -/
def run_geolocation_agent (analyzeFn : String → String → ADict) (st : AnalysisState) :
    Option ADict :=
  if "geolocation" ∈ st.agents_to_run then some (analyzeFn st.image_base64 st.context) else none

/-- `utils/image_utils.verify_image_size`: strip the data-URI marker, hand the
data to the external decoder (`decode` models `base64.b64decode` plus
`PIL.Image.open`; `none` models any exception it raises, which the function
catches), log, and return the dimensions or `None`.  It never raises and
enforces no limit. -/
def verify_image_size (decode : String → Option (Nat × Nat)) (image_base64 : String) :
    Option (Nat × Nat) :=
  decode (if hasComma image_base64 then (splitComma image_base64).getD 1 ""
          else image_base64)

/-- Result of `CoordinatorAgent.analyze_frame`: the JSON report and the agent
kinds that were dispatched, in graph order. -/
structure FrameOutcome where
  report : FinalJson
  dispatched : List String
deriving DecidableEq, Repr

/-- `CoordinatorAgent.analyze_frame`: verify the image size (result unused),
default the agent selection to all four kinds, run the four runner nodes on
the initial state (LangGraph fan-out/fan-in), and combine.  The embedding is
total, so the `except` fallbacks of the source are unreachable. -/
def analyze_frame (decode : String → Option (Nat × Nat)) (now : String)
    (visionFn ocrFn detectionFn geolocationFn : String → String → ADict)
    (image_base64 context : String) (agents_to_run? : Option (List String)) :
    FrameOutcome :=
  let _sizeCheck := verify_image_size decode image_base64
  let agents_to_run := agents_to_run?.getD ["vision", "ocr", "detection", "geolocation"]
  let st : AnalysisState :=
    { image_base64 := image_base64, context := context, agents_to_run := agents_to_run }
  let st1 : AnalysisState :=
    { st with
      vision_result := run_vision_agent visionFn st,
      ocr_result := run_ocr_agent ocrFn st,
      detection_result := run_detection_agent detectionFn st,
      geolocation_result := run_geolocation_agent geolocationFn st }
  ⟨combine_results_json now st1,
   (["vision", "ocr", "detection", "geolocation"]).filter (fun k => k ∈ agents_to_run)⟩

/- ## Multi-frame context (`agents/coordinator/multi_frame_handler.py`) -/

/-- Python's `l[-n:]`: the most recent `n` elements (the whole list when it is
shorter). -/
def lastN {α : Type} (n : Nat) (l : List α) : List α := l.drop (l.length - n)

/-- The base context line `Imagen i/n: description`. -/
def frameBaseContext (idx total_frames : Nat) (description : String) : String :=
  "Imagen " ++ toString (idx + 1) ++ "/" ++ toString total_frames ++ ": " ++ description

/-- `MultiFrameHandler._build_frame_context`: the base description, plus — only
when accumulation is enabled and this is not the first frame — the last 10
accumulated geolocation clues, the last 5 OCR texts and the last 5 detection
snippets, each section present only when its list is non-empty. -/
def _build_frame_context (idx total_frames : Nat) (description : String)
    (enable_context : Bool) (geo_clues ocr_texts detections : List String) : String :=
  let context := frameBaseContext idx total_frames description
  if enable_context ∧ 0 < idx then
    let context := context ++ "\n\n🔍 PISTAS ACUMULADAS DE IMÁGENES ANTERIORES:\n"
    let context :=
      if ¬ (geo_clues = []) then
        context ++ "\n📍 Geolocalización:\n" ++ String.intercalate "\n" (lastN 10 geo_clues)
      else context
    let context :=
      if ¬ (ocr_texts = []) then
        context ++ "\n\n📝 Textos encontrados:\n" ++ String.intercalate "\n" (lastN 5 ocr_texts)
      else context
    let context :=
      if ¬ (detections = []) then
        context ++ "\n\n🎯 Objetos detectados:\n" ++ String.intercalate "\n" (lastN 5 detections)
      else context
    context
  else context

/- ## Association-list lemmas -/

theorem assocLookup_append_of_none {α : Type} {k : String} {l1 l2 : List (String × α)}
    (h : assocLookup k l1 = none) : assocLookup k (l1 ++ l2) = assocLookup k l2 := by
  induction l1 with
  | nil => rfl
  | cons p rest ih =>
    by_cases hp : p.1 = k
    · simp [assocLookup, hp] at h
    · simp only [assocLookup, hp, if_false] at h
      simp only [List.cons_append, assocLookup, hp, if_false]
      exact ih h

theorem assocLookup_append_of_some {α : Type} {k : String} {v : α} {l1 l2 : List (String × α)}
    (h : assocLookup k l1 = some v) : assocLookup k (l1 ++ l2) = some v := by
  induction l1 with
  | nil => exact Option.noConfusion h
  | cons p rest ih =>
    by_cases hp : p.1 = k
    · simp only [assocLookup, hp, if_true] at h
      simp only [List.cons_append, assocLookup, hp, if_true]
      exact h
    · simp only [assocLookup, hp, if_false] at h
      simp only [List.cons_append, assocLookup, hp, if_false]
      exact ih h

theorem assocLookup_assocErase_self {α : Type} (k : String) (l : List (String × α)) :
    assocLookup k (assocErase k l) = none := by
  induction l with
  | nil => rfl
  | cons p rest ih =>
    by_cases hp : p.1 = k
    · simpa [assocErase, List.filter_cons, hp] using ih
    · simpa [assocErase, List.filter_cons, hp, assocLookup] using ih

theorem assocLookup_assocErase_ne {α : Type} {k' k : String} (l : List (String × α))
    (h : ¬ k' = k) : assocLookup k' (assocErase k l) = assocLookup k' l := by
  have hk : ¬ k = k' := fun hc => h hc.symm
  induction l with
  | nil => rfl
  | cons p rest ih =>
    by_cases hp : p.1 = k
    · have hpk : ¬ p.1 = k' := by rw [hp]; exact hk
      simpa [assocErase, List.filter_cons, hp, assocLookup, hpk, hk] using ih
    · by_cases hpk : p.1 = k'
      · simp [assocErase, List.filter_cons, hp, assocLookup, hpk, h]
      · simpa [assocErase, List.filter_cons, hp, assocLookup, hpk] using ih

theorem assocErase_of_forall_ne {α : Type} {k : String} {l : List (String × α)}
    (h : ∀ p ∈ l, ¬ (p.1 = k)) : assocErase k l = l := by
  induction l with
  | nil => rfl
  | cons p rest ih =>
    have hp : ¬ p.1 = k := h p (by simp)
    have hrest : assocErase k rest = rest := ih fun q hq => h q (by simp [hq])
    simpa [assocErase, List.filter_cons, hp] using hrest

theorem assocLookup_map_update {α : Type} (k : String) (v : α) (l : List (String × α)) :
    assocLookup k (l.map (fun p => if p.1 = k then (k, v) else p)) =
      if (assocLookup k l).isSome then some v else none := by
  induction l with
  | nil => rfl
  | cons p rest ih =>
    by_cases hp : p.1 = k
    · simp [assocLookup, hp]
    · simpa [assocLookup, hp] using ih

theorem assocLookup_map_update_ne {α : Type} {k' k : String} (v : α)
    (l : List (String × α)) (h : ¬ k' = k) :
    assocLookup k' (l.map (fun p => if p.1 = k then (k, v) else p)) = assocLookup k' l := by
  have hk : ¬ k = k' := fun hc => h hc.symm
  induction l with
  | nil => rfl
  | cons p rest ih =>
    by_cases hp : p.1 = k
    · have hp' : ¬ p.1 = k' := by rw [hp]; exact hk
      simpa [assocLookup, hp, hk, hp'] using ih
    · by_cases hpk : p.1 = k'
      · simp [assocLookup, hp, hpk, h]
      · simpa [assocLookup, hp, hpk] using ih

theorem assocLookup_assocSet_self {α : Type} (k : String) (v : α) (l : List (String × α)) :
    assocLookup k (assocSet k v l) = some v := by
  cases hc : assocLookup k l with
  | some w =>
    have hs : (assocLookup k l).isSome = true := by rw [hc]; rfl
    unfold assocSet
    rw [if_pos hs, assocLookup_map_update, if_pos hs]
  | none =>
    have hs : ¬ ((assocLookup k l).isSome = true) := by rw [hc]; simp
    unfold assocSet
    rw [if_neg hs, assocLookup_append_of_none hc]
    simp [assocLookup]

theorem assocLookup_assocSet_ne {α : Type} {k' k : String} (v : α) (l : List (String × α))
    (h : ¬ k' = k) : assocLookup k' (assocSet k v l) = assocLookup k' l := by
  have hk : ¬ k = k' := fun hc => h hc.symm
  by_cases hs : (assocLookup k l).isSome = true
  · unfold assocSet
    rw [if_pos hs]
    exact assocLookup_map_update_ne v l h
  · unfold assocSet
    rw [if_neg hs]
    cases hc : assocLookup k' l with
    | some w => exact assocLookup_append_of_some hc
    | none =>
      rw [assocLookup_append_of_none hc]
      simp [assocLookup, hk]

theorem assocLookup_moveToEnd_self {α : Type} {k : String} {v : α} {l : List (String × α)}
    (h : assocLookup k l = some v) : assocLookup k (moveToEnd k l) = some v := by
  unfold moveToEnd
  rw [h]
  rw [assocLookup_append_of_none (assocLookup_assocErase_self k l)]
  simp [assocLookup]

/- ## Claim theorems -/

/-- C3, amended: `combine_results` hard-codes `status="success"` in both the
validated report and the fallback report, so the combined report's overall
status is `"success"` for every analysis state, regardless of how many
dispatched agents failed. -/
theorem combine_results_status_always_success (now : String) (st : AnalysisState) :
    (combine_results_json now st).status = "success" := by
  simp only [combine_results_json]
  split
  · rfl
  · rfl

/-- C3, counterexample: a state in which every dispatched agent result has
status `"error"` (total failure) still produces a combined report with
overall status `"success"`, not `"error"` as the claim requires. -/
theorem combine_results_total_failure_still_success :
    let st : AnalysisState :=
      { vision_result := some (visionFailedDict "boom"),
        ocr_result := some
          { agent := some (.str "ocr"), status := some (.str "error"),
            analysis := some (.str "OCR extraction failed"),
            error := some (.str "boom"), has_text := some (.bool false) },
        detection_result := some
          { agent := some (.str "detection"), status := some (.str "error"),
            analysis := some (.str "Detection analysis failed"),
            error := some (.str "boom") },
        geolocation_result := some
          { agent := some (.str "geolocation"), status := some (.str "error"),
            analysis := some (.str "Geolocation analysis failed"),
            error := some (.str "boom") } }
    (combine_results_json "t" st).status = "success" ∧
    ¬ (combine_results_json "t" st).status = "error" ∧
    st.vision_result.map ADict.status = some (some (.str "error")) ∧
    st.ocr_result.map ADict.status = some (some (.str "error")) ∧
    st.detection_result.map ADict.status = some (some (.str "error")) ∧
    st.geolocation_result.map ADict.status = some (some (.str "error")) := by
  refine ⟨?_, ?_, rfl, rfl, rfl, rfl⟩
  · decide
  · decide

/-- C9: in an accumulating multi-input session, the context built for input
`i` is the base description alone when `i = 0`, and otherwise the base
description followed by exactly the most recent 10 accumulated location
clues, the most recent 5 OCR snippets and the most recent 5 detection
snippets (each section present only when non-empty); the window really is
the most recent entries — `lastN` keeps `min n length` elements — and after
12 accumulated location clues exactly the 2 oldest are dropped. -/
theorem frame_context_windowing :
    (∀ (total : Nat) (desc : String) (enable : Bool) (geo ocr det : List String),
        _build_frame_context 0 total desc enable geo ocr det =
          frameBaseContext 0 total desc) ∧
    (∀ (idx total : Nat) (desc : String) (geo ocr det : List String), 0 < idx →
        _build_frame_context idx total desc true geo ocr det =
          frameBaseContext idx total desc ++
            ("\n\n🔍 PISTAS ACUMULADAS DE IMÁGENES ANTERIORES:\n" ++
              ((if geo = [] then "" else
                  "\n📍 Geolocalización:\n" ++ String.intercalate "\n" (lastN 10 geo)) ++
                ((if ocr = [] then "" else
                    "\n\n📝 Textos encontrados:\n" ++ String.intercalate "\n" (lastN 5 ocr)) ++
                  (if det = [] then "" else
                    "\n\n🎯 Objetos detectados:\n" ++
                      String.intercalate "\n" (lastN 5 det)))))) ∧
    (∀ (n : Nat) (l : List String), (lastN n l).length = min n l.length) ∧
    (∀ geo : List String, geo.length = 12 → lastN 10 geo = geo.drop 2) := by
  refine ⟨?_, ?_, ?_, ?_⟩
  · intro total desc enable geo ocr det
    unfold _build_frame_context
    simp
  · intro idx total desc geo ocr det hidx
    unfold _build_frame_context
    by_cases hg : geo = [] <;> by_cases ho : ocr = [] <;> by_cases hd : det = [] <;>
      simp [hidx, hg, ho, hd, String.append_assoc, String.append_empty] <;> rfl
  · intro n l
    unfold lastN
    rw [List.length_drop]
    omega
  · intro geo h
    unfold lastN
    rw [h]

/-- Witness for C9 at a 3-input session: input index 1 with 12 accumulated
location clues sees exactly clues 3..12. -/
theorem frame_context_windowing_witness :
    0 < 1 ∧
    (["c1", "c2", "c3", "c4", "c5", "c6", "c7", "c8", "c9", "c10", "c11",
      "c12"] : List String).length = 12 ∧
    _build_frame_context 1 3 "d" true
        ["c1", "c2", "c3", "c4", "c5", "c6", "c7", "c8", "c9", "c10", "c11", "c12"] [] [] =
      frameBaseContext 1 3 "d" ++
        ("\n\n🔍 PISTAS ACUMULADAS DE IMÁGENES ANTERIORES:\n" ++
          ((if (["c1", "c2", "c3", "c4", "c5", "c6", "c7", "c8", "c9", "c10", "c11",
                "c12"] : List String) = [] then "" else
              "\n📍 Geolocalización:\n" ++ String.intercalate "\n"
                (lastN 10 ["c1", "c2", "c3", "c4", "c5", "c6", "c7", "c8", "c9", "c10",
                  "c11", "c12"])) ++
            ((if ([] : List String) = [] then "" else
                "\n\n📝 Textos encontrados:\n" ++ String.intercalate "\n" (lastN 5 [])) ++
              (if ([] : List String) = [] then "" else
                "\n\n🎯 Objetos detectados:\n" ++ String.intercalate "\n" (lastN 5 []))))) ∧
    lastN 10 ["c1", "c2", "c3", "c4", "c5", "c6", "c7", "c8", "c9", "c10", "c11", "c12"] =
      (["c1", "c2", "c3", "c4", "c5", "c6", "c7", "c8", "c9", "c10", "c11",
        "c12"] : List String).drop 2 := by
  refine ⟨by decide, by decide, ?_, ?_⟩
  · exact frame_context_windowing.2.1 1 3 "d"
      ["c1", "c2", "c3", "c4", "c5", "c6", "c7", "c8", "c9", "c10", "c11", "c12"] [] []
      (by decide)
  · exact frame_context_windowing.2.2.2
      ["c1", "c2", "c3", "c4", "c5", "c6", "c7", "c8", "c9", "c10", "c11", "c12"] (by decide)

/-- C10: the cache key depends on the payload only through the segment
between its first and second commas (`split(",")[1]`): two distinct payloads
that both contain a comma and agree on that segment yield identical cache
keys, so any cache lookup treats them interchangeably. -/
theorem cache_key_ignores_payload_outside_segment
    (sha256hex md5hex : String → String) (p1 p2 agent_name context : String)
    (h1 : hasComma p1 = true) (h2 : hasComma p2 = true)
    (hne : ¬ p1 = p2)
    (hseg : (splitComma p1).getD 1 "" = (splitComma p2).getD 1 "") :
    get_cache_key sha256hex md5hex p1 agent_name context =
      get_cache_key sha256hex md5hex p2 agent_name context ∧
    (∀ (now : Int) (c : CacheState),
        get_cached_result now (get_cache_key sha256hex md5hex p1 agent_name context) c =
          get_cached_result now (get_cache_key sha256hex md5hex p2 agent_name context) c) := by
  have hk : get_cache_key sha256hex md5hex p1 agent_name context =
      get_cache_key sha256hex md5hex p2 agent_name context := by
    unfold get_cache_key get_image_hash
    simp only [h1, h2, if_true, hseg]
  exact ⟨hk, fun now c => by rw [hk]⟩

/-- Witness for C10: a data-URI payload and an unrelated two-part payload
sharing the middle segment `SEG` collide on the cache key. -/
theorem cache_key_ignores_payload_outside_segment_witness :
    hasComma "data:image/png;base64,SEG,tail" = true ∧
    hasComma "x,SEG" = true ∧
    ¬ (("data:image/png;base64,SEG,tail" : String) = "x,SEG") ∧
    (splitComma "data:image/png;base64,SEG,tail").getD 1 "" =
      (splitComma "x,SEG").getD 1 "" ∧
    get_cache_key (fun s => s) (fun s => s) "data:image/png;base64,SEG,tail" "vision" "" =
      get_cache_key (fun s => s) (fun s => s) "x,SEG" "vision" "" := by
  refine ⟨by decide, by decide, by decide, by decide, ?_⟩
  exact (cache_key_ignores_payload_outside_segment (fun s => s) (fun s => s)
    "data:image/png;base64,SEG,tail" "x,SEG" "vision" ""
    (by decide) (by decide) (by decide) (by decide)).1

/-- C8, amended: `analyze_frame` performs no fail-fast payload validation.
The result of `verify_image_size` is discarded, so the returned report and
the set of dispatched agents are identical for any two decoder behaviours
(including one that fails on every payload), and with the default selection
all four agents are dispatched. -/
theorem analyze_frame_no_fail_fast (decode1 decode2 : String → Option (Nat × Nat))
    (now : String) (vF oF dF gF : String → String → ADict) (img ctx : String)
    (sel? : Option (List String)) :
    analyze_frame decode1 now vF oF dF gF img ctx sel? =
      analyze_frame decode2 now vF oF dF gF img ctx sel? ∧
    (analyze_frame decode1 now vF oF dF gF img ctx none).dispatched =
      ["vision", "ocr", "detection", "geolocation"] := by
  exact ⟨rfl, rfl⟩

/-- C8, counterexample: a payload the decoder cannot decode at all is still
fully analyzed — all four agents are dispatched and the report carries status
`"success"` — contradicting the claimed error-status fast path with no
dispatch. -/
theorem analyze_frame_invalid_payload_still_dispatches :
    let oDict : ADict :=
      { agent := some (.str "ocr"), status := some (.str "success"),
        analysis := some (.str "text found"), confidence := some (.str "high"),
        has_text := some (.bool true) }
    let dDict : ADict :=
      { agent := some (.str "detection"), status := some (.str "success"),
        analysis := some (.str "objects"), confidence := some (.str "high") }
    let gDict : ADict :=
      { agent := some (.str "geolocation"), status := some (.str "success"),
        analysis := some (.str "place"), confidence := some (.str "high") }
    let out := analyze_frame (fun _ => none) "t" (fun _ _ => visionSuccessDict "ok")
      (fun _ _ => oDict) (fun _ _ => dDict) (fun _ _ => gDict) "notbase64" "" none
    verify_image_size (fun _ => none) "notbase64" = none ∧
    out.dispatched = ["vision", "ocr", "detection", "geolocation"] ∧
    out.report.status = "success" ∧
    ¬ (out.report.status = "error") := by
  refine ⟨rfl, by decide, by decide, by decide⟩

/-- C1, counterexample: with all three of vision/ocr/detection present and
valid and geolocation not dispatched, the validated report's `agents` mapping
has no `geolocation` entry at all — the registry kind neither appears nor is
marked skipped, contradicting four-kind totality. -/
theorem combine_results_missing_geolocation_entry :
    let st : AnalysisState :=
      { agents_to_run := ["vision", "ocr", "detection"],
        vision_result := some (visionSuccessDict "scene"),
        ocr_result := some
          { agent := some (.str "ocr"), status := some (.str "success"),
            analysis := some (.str "text"), confidence := some (.str "high"),
            has_text := some (.bool true) },
        detection_result := some
          { agent := some (.str "detection"), status := some (.str "success"),
            analysis := some (.str "objects"), confidence := some (.str "high") },
        geolocation_result := none }
    st.geolocation_result = none ∧
    assocLookup "geolocation" (combine_results_json "t" st).agents = none ∧
    (combine_results_json "t" st).agents.map Prod.fst = ["vision", "ocr", "detection"] := by
  refine ⟨rfl, by decide, by decide⟩

/-- C1, amended: the `agents` mapping of the combined report always contains
exactly one entry for each of vision, ocr and detection; `geolocation`
appears only in the fallback report (the validated report drops it because
`AgentResults` has no such field).  On the validated path a kind whose result
is absent gets the skipped placeholder; on the fallback path an absent
geolocation is marked `"skipped"`. -/
theorem combine_results_agents_structure (now : String) (st : AnalysisState) :
    ((combine_results_json now st).agents.map Prod.fst = ["vision", "ocr", "detection"] ∨
      (combine_results_json now st).agents.map Prod.fst =
        ["vision", "ocr", "detection", "geolocation"]) ∧
    (st.vision_result.getD ADict.empty = ADict.empty →
      (combine_results_json now st).agents.map Prod.fst = ["vision", "ocr", "detection"] →
      assocLookup "vision" (combine_results_json now st).agents = some visionSkippedDump) ∧
    (st.ocr_result.getD ADict.empty = ADict.empty →
      (combine_results_json now st).agents.map Prod.fst = ["vision", "ocr", "detection"] →
      assocLookup "ocr" (combine_results_json now st).agents = some ocrSkippedDump) ∧
    (st.detection_result.getD ADict.empty = ADict.empty →
      (combine_results_json now st).agents.map Prod.fst = ["vision", "ocr", "detection"] →
      assocLookup "detection" (combine_results_json now st).agents =
        some detectionSkippedDump) ∧
    (st.geolocation_result.getD ADict.empty = ADict.empty →
      (combine_results_json now st).agents.map Prod.fst =
        ["vision", "ocr", "detection", "geolocation"] →
      (assocLookup "geolocation" (combine_results_json now st).agents).map ADict.status =
        some (some (.str "skipped"))) := by
  simp only [combine_results_json]
  split
  case _ vr orr dr _gr hv ho hd hg =>
    refine ⟨Or.inl ?_, ?_, ?_, ?_, ?_⟩
    · rcases vr with _ | v <;> rcases orr with _ | o <;> rcases dr with _ | d <;> simp
    · intro hemp _
      have ht : (st.vision_result.getD ADict.empty).truthy = false := by
        simp [ADict.truthy, hemp]
      rw [ht] at hv
      simp at hv
      rw [← hv]
      rcases orr with _ | o <;> rcases dr with _ | d <;> simp [assocLookup]
    · intro hemp _
      have ht : (st.ocr_result.getD ADict.empty).truthy = false := by
        simp [ADict.truthy, hemp]
      rw [ht] at ho
      simp at ho
      rw [← ho]
      rcases vr with _ | v <;> rcases dr with _ | d <;> simp [assocLookup]
    · intro hemp _
      have ht : (st.detection_result.getD ADict.empty).truthy = false := by
        simp [ADict.truthy, hemp]
      rw [ht] at hd
      simp at hd
      rw [← hd]
      rcases vr with _ | v <;> rcases orr with _ | o <;> simp [assocLookup]
    · intro _ hkeys
      exfalso
      rcases vr with _ | v <;> rcases orr with _ | o <;> rcases dr with _ | d <;>
        simp at hkeys
  case _ x1 x2 x3 x4 hmatch =>
    refine ⟨Or.inr (by simp [_build_fallback_report]), ?_, ?_, ?_, ?_⟩
    · intro _ hkeys
      exfalso
      simp [_build_fallback_report] at hkeys
    · intro _ hkeys
      exfalso
      simp [_build_fallback_report] at hkeys
    · intro _ hkeys
      exfalso
      simp [_build_fallback_report] at hkeys
    · intro hemp _
      simp [_build_fallback_report, assocLookup, ADict.truthy, hemp]

/-- Witness for C1, amended: with no results at all the validated report lists
the three kinds with the vision slot skipped; with an invalid ocr result the
fallback report lists four kinds and marks the absent geolocation skipped. -/
theorem combine_results_agents_structure_witness :
    (({} : AnalysisState).vision_result.getD ADict.empty = ADict.empty) ∧
    ((combine_results_json "t" {}).agents.map Prod.fst = ["vision", "ocr", "detection"]) ∧
    assocLookup "vision" (combine_results_json "t" {}).agents = some visionSkippedDump ∧
    (({ ocr_result := some { status := some (.str "error") } } :
        AnalysisState).geolocation_result.getD ADict.empty = ADict.empty) ∧
    ((combine_results_json "t"
        { ocr_result := some { status := some (.str "error") } }).agents.map Prod.fst =
      ["vision", "ocr", "detection", "geolocation"]) ∧
    (assocLookup "geolocation" (combine_results_json "t"
        { ocr_result := some { status := some (.str "error") } }).agents).map ADict.status =
      some (some (.str "skipped")) := by
  refine ⟨rfl, by decide, ?_, rfl, by decide, ?_⟩
  · exact (combine_results_agents_structure "t" {}).2.1 rfl (by decide)
  · exact (combine_results_agents_structure "t"
      { ocr_result := some { status := some (.str "error") } }).2.2.2.2 rfl (by decide)

/- ## Circuit-breaker call lemmas -/

theorem call_closed_exec_failure (cb : CircuitBreaker) (now : Int) (e : PyExn)
    (h : cb.state = .closed) :
    cb.call now (.error e) = ⟨.error e, cb._on_failure now, true⟩ := by
  unfold CircuitBreaker.call
  rw [h]
  rfl

theorem call_open_rejected (cb : CircuitBreaker) (now : Int) (func : Except PyExn ADict)
    (h1 : cb.state = .opened) (h2 : cb._should_attempt_recovery now = false) :
    cb.call now func = ⟨.error .breakerOpen, cb, false⟩ := by
  unfold CircuitBreaker.call
  rw [h1, h2]
  rfl

theorem call_open_recovery_success (cb : CircuitBreaker) (now : Int) (v : ADict)
    (h1 : cb.state = .opened) (h2 : cb._should_attempt_recovery now = true) :
    cb.call now (.ok v) =
      ⟨.ok v, ({ cb with state := .halfOpen, success_count := 0 } :
        CircuitBreaker)._on_success, true⟩ := by
  unfold CircuitBreaker.call
  rw [h1, h2]
  rfl

theorem call_not_open_success (cb : CircuitBreaker) (now : Int) (v : ADict)
    (h : ¬ cb.state = .opened) :
    cb.call now (.ok v) = ⟨.ok v, cb._on_success, true⟩ := by
  unfold CircuitBreaker.call
  rw [if_neg h]

theorem call_not_open_failure (cb : CircuitBreaker) (now : Int) (e : PyExn)
    (h : ¬ cb.state = .opened) :
    cb.call now (.error e) = ⟨.error e, cb._on_failure now, true⟩ := by
  unfold CircuitBreaker.call
  rw [if_neg h]

/-- After a non-empty run of failing calls from a closed breaker whose counter
can reach at most the threshold, the counter, last-failure time and state are
as the transition relation dictates. -/
theorem runFailures_from_closed (calls : List (Int × PyExn)) :
    ∀ cb : CircuitBreaker, cb.state = .closed →
      cb.failure_count + calls.length ≤ cb.failure_threshold →
      ¬ (calls = []) →
      (runFailures cb calls).failure_threshold = cb.failure_threshold ∧
      (runFailures cb calls).recovery_timeout = cb.recovery_timeout ∧
      (runFailures cb calls).failure_count = cb.failure_count + calls.length ∧
      (runFailures cb calls).last_failure_time = calls.getLast?.map Prod.fst ∧
      (runFailures cb calls).state =
        (if cb.failure_threshold ≤ cb.failure_count + calls.length then
          CircuitState.opened else .closed) := by
  induction calls with
  | nil => intro cb _ _ hne; exact absurd rfl hne
  | cons c rest ih =>
    intro cb hstate hle _
    have hstep : runFailures cb (c :: rest) = runFailures (cb._on_failure c.1) rest := by
      unfold runFailures
      rw [List.foldl_cons, call_closed_exec_failure cb c.1 c.2 hstate]
    rcases rest with _ | ⟨c2, rest2⟩
    · rw [hstep]
      unfold runFailures CircuitBreaker._on_failure
      rw [hstate]
      simp only [List.foldl_nil, List.length_cons, List.length_nil]
      by_cases hth : cb.failure_threshold ≤ cb.failure_count + 1
      · simp [hth]
      · simp [hth]
    · have hcount : (cb._on_failure c.1).failure_count = cb.failure_count + 1 := by
        unfold CircuitBreaker._on_failure
        rw [hstate]
        have hth : ¬ (cb.failure_threshold ≤ cb.failure_count + 1) := by
          simp only [List.length_cons] at hle
          omega
        simp [hth]
      have hrec : (cb._on_failure c.1).state = .closed ∧
          (cb._on_failure c.1).failure_threshold = cb.failure_threshold ∧
          (cb._on_failure c.1).recovery_timeout = cb.recovery_timeout := by
        unfold CircuitBreaker._on_failure
        rw [hstate]
        have hth : ¬ (cb.failure_threshold ≤ cb.failure_count + 1) := by
          simp only [List.length_cons] at hle
          omega
        simp [hth]
      have hle2 : (cb._on_failure c.1).failure_count + (c2 :: rest2).length ≤
          (cb._on_failure c.1).failure_threshold := by
        rw [hcount, hrec.2.1]
        simp only [List.length_cons] at hle ⊢
        omega
      have := ih (cb._on_failure c.1) hrec.1 hle2 (by simp)
      rw [hstep]
      refine ⟨?_, ?_, ?_, ?_, ?_⟩
      · rw [this.1, hrec.2.1]
      · rw [this.2.1, hrec.2.2]
      · rw [this.2.2.1, hcount]
        simp only [List.length_cons]
        omega
      · rw [this.2.2.2.1]
        rfl
      · rw [this.2.2.2.2, hrec.2.1, hcount]
        simp only [List.length_cons]
        by_cases hth : cb.failure_threshold ≤ cb.failure_count + (rest2.length + 1 + 1)
        · rw [if_pos (by omega), if_pos (by omega)]
        · rw [if_neg (by omega), if_neg (by omega)]

/-- C4: from a fresh closed breaker with failure threshold `F ≥ 1`, a sequence
of `F` consecutive failed calls leaves the breaker Open, and a further call
attempt made before the recovery timeout has elapsed since the last failure
invokes the wrapped function zero times and fails with the synthetic
breaker-open error — which the protected vision path converts into the
circuit-open error dictionary without any external call. -/
theorem circuit_breaker_threshold_opens
    (F : Nat) (rt : Int) (calls : List (Int × PyExn)) (now tN : Int) (eN : PyExn)
    (hF : 1 ≤ F) (hlen : calls.length = F)
    (hlast : calls.getLast? = some (tN, eN)) (hnow : now - tN < rt) :
    (runFailures (CircuitBreaker.init F rt) calls).state = .opened ∧
    (∀ func, (runFailures (CircuitBreaker.init F rt) calls).call now func =
      ⟨.error .breakerOpen, runFailures (CircuitBreaker.init F rt) calls, false⟩) ∧
    (∀ ext, _analyze_with_protection_body
        (some (runFailures (CircuitBreaker.init F rt) calls)) now ext =
      ⟨.ok circuitOpenErrorDict,
        some (runFailures (CircuitBreaker.init F rt) calls), 0⟩) := by
  have hne : ¬ (calls = []) := by
    intro hc
    rw [hc] at hlen
    simp at hlen
    omega
  have hrun := runFailures_from_closed calls (CircuitBreaker.init F rt) rfl
    (by simp [CircuitBreaker.init, hlen]) hne
  have hopen : (runFailures (CircuitBreaker.init F rt) calls).state = .opened := by
    rw [hrun.2.2.2.2]
    simp [CircuitBreaker.init, hlen]
  have hlastT : (runFailures (CircuitBreaker.init F rt) calls).last_failure_time =
      some tN := by
    rw [hrun.2.2.2.1, hlast]
    rfl
  have hnorec : (runFailures (CircuitBreaker.init F rt) calls)._should_attempt_recovery
      now = false := by
    unfold CircuitBreaker._should_attempt_recovery
    rw [hlastT]
    have hrt : (runFailures (CircuitBreaker.init F rt) calls).recovery_timeout = rt := by
      rw [hrun.2.1]
      rfl
    rw [hrt]
    exact decide_eq_false (by omega)
  have hrej := fun func => call_open_rejected _ now func hopen hnorec
  refine ⟨hopen, hrej, ?_⟩
  intro ext
  have hco := hrej (_analyze_internal ext)
  simp only [_analyze_with_protection_body, hco]
  rfl

/-- Witness for C4 at threshold 5 with five failures at times 0..4 and a
rejected call at time 10 (recovery timeout 60). -/
theorem circuit_breaker_threshold_opens_witness :
    1 ≤ 5 ∧
    ([((0 : Int), PyExn.other "x"), (1, .other "x"), (2, .other "x"), (3, .other "x"),
      (4, .other "x")].length = 5) ∧
    ([((0 : Int), PyExn.other "x"), (1, .other "x"), (2, .other "x"), (3, .other "x"),
      (4, .other "x")].getLast? = some (4, .other "x")) ∧
    ((10 : Int) - 4 < 60) ∧
    (runFailures (CircuitBreaker.init 5 60)
      [((0 : Int), PyExn.other "x"), (1, .other "x"), (2, .other "x"), (3, .other "x"),
        (4, .other "x")]).state = .opened ∧
    _analyze_with_protection_body
        (some (runFailures (CircuitBreaker.init 5 60)
          [((0 : Int), PyExn.other "x"), (1, .other "x"), (2, .other "x"),
            (3, .other "x"), (4, .other "x")])) 10 (.ok "hello") =
      ⟨.ok circuitOpenErrorDict,
        some (runFailures (CircuitBreaker.init 5 60)
          [((0 : Int), PyExn.other "x"), (1, .other "x"), (2, .other "x"),
            (3, .other "x"), (4, .other "x")]), 0⟩ := by
  refine ⟨by decide, by decide, by decide, by decide, ?_, ?_⟩
  · exact (circuit_breaker_threshold_opens 5 60
      [((0 : Int), PyExn.other "x"), (1, .other "x"), (2, .other "x"), (3, .other "x"),
        (4, .other "x")] 10 4 (.other "x") (by decide) (by decide) (by decide)
      (by decide)).1
  · exact (circuit_breaker_threshold_opens 5 60
      [((0 : Int), PyExn.other "x"), (1, .other "x"), (2, .other "x"), (3, .other "x"),
        (4, .other "x")] 10 4 (.other "x") (by decide) (by decide) (by decide)
      (by decide)).2.2 (.ok "hello")

/-- C5: for a breaker in the Open state, once at least the recovery timeout
has elapsed since the recorded last failure, the next call is let through as a
half-open trial (the function is invoked and its value returned); a second
consecutive successful call closes the breaker (2 successes required); and
from any half-open state a single failing call reopens the breaker
immediately, whatever the failure count. -/
theorem circuit_breaker_recovery (cb : CircuitBreaker) (t now1 now2 : Int) (v1 v2 : ADict)
    (h1 : cb.state = .opened) (h2 : cb.last_failure_time = some t)
    (h3 : cb.recovery_timeout ≤ now1 - t) :
    (cb.call now1 (.ok v1)).invoked = true ∧
    (cb.call now1 (.ok v1)).result = .ok v1 ∧
    (cb.call now1 (.ok v1)).breaker.state = .halfOpen ∧
    ((cb.call now1 (.ok v1)).breaker.call now2 (.ok v2)).invoked = true ∧
    ((cb.call now1 (.ok v1)).breaker.call now2 (.ok v2)).breaker.state = .closed ∧
    (∀ (cb' : CircuitBreaker) (now : Int) (e : PyExn), cb'.state = .halfOpen →
      (cb'.call now (.error e)).breaker.state = .opened ∧
      (cb'.call now (.error e)).invoked = true) := by
  have hsar : cb._should_attempt_recovery now1 = true := by
    unfold CircuitBreaker._should_attempt_recovery
    rw [h2]
    exact decide_eq_true h3
  have hc1 := call_open_recovery_success cb now1 v1 h1 hsar
  have hb1 : (cb.call now1 (.ok v1)).breaker =
      { cb with state := .halfOpen, success_count := 1, failure_count := 0 } := by
    rw [hc1]
    rfl
  have hnotOpen : ¬ ((cb.call now1 (.ok v1)).breaker.state = .opened) := by
    rw [hb1]
    intro hc
    exact CircuitState.noConfusion hc
  have hc2 := call_not_open_success ((cb.call now1 (.ok v1)).breaker) now2 v2 hnotOpen
  refine ⟨by rw [hc1], by rw [hc1], by rw [hb1], by rw [hc2], ?_, ?_⟩
  · rw [hc2, hb1]
    rfl
  · intro cb' now e h
    have hno : ¬ (cb'.state = .opened) := by
      rw [h]
      intro hc
      exact CircuitState.noConfusion hc
    rw [call_not_open_failure cb' now e hno]
    constructor
    · simp [CircuitBreaker._on_failure, h]
    · rfl

/-- Witness for C5: a breaker opened at time 0 with recovery timeout 60
admits a trial at time 60, closes after a second success at time 61, and a
half-open breaker reopens on one failure. -/
theorem circuit_breaker_recovery_witness :
    (⟨5, 60, .opened, 5, some 0, 0⟩ : CircuitBreaker).state = .opened ∧
    (⟨5, 60, .opened, 5, some 0, 0⟩ : CircuitBreaker).last_failure_time = some 0 ∧
    ((⟨5, 60, .opened, 5, some 0, 0⟩ : CircuitBreaker).recovery_timeout ≤ 60 - 0) ∧
    ((⟨5, 60, .opened, 5, some 0, 0⟩ : CircuitBreaker).call 60
      (.ok (visionSuccessDict "a"))).breaker.state = .halfOpen ∧
    (((⟨5, 60, .opened, 5, some 0, 0⟩ : CircuitBreaker).call 60
        (.ok (visionSuccessDict "a"))).breaker.call 61
      (.ok (visionSuccessDict "b"))).breaker.state = .closed ∧
    ((⟨5, 60, .halfOpen, 0, none, 0⟩ : CircuitBreaker).call 7
      (.error (.other "x"))).breaker.state = .opened := by
  refine ⟨rfl, rfl, by decide, ?_, ?_, ?_⟩
  · exact (circuit_breaker_recovery ⟨5, 60, .opened, 5, some 0, 0⟩ 0 60 61
      (visionSuccessDict "a") (visionSuccessDict "b") rfl rfl (by decide)).2.2.1
  · exact (circuit_breaker_recovery ⟨5, 60, .opened, 5, some 0, 0⟩ 0 60 61
      (visionSuccessDict "a") (visionSuccessDict "b") rfl rfl (by decide)).2.2.2.2.1
  · exact ((circuit_breaker_recovery ⟨5, 60, .opened, 5, some 0, 0⟩ 0 60 61
      (visionSuccessDict "a") (visionSuccessDict "b") rfl rfl (by decide)).2.2.2.2.2
      ⟨5, 60, .halfOpen, 0, none, 0⟩ 7 (.other "x") rfl).1

/- ## Status-shape lemmas for the protected vision pipeline -/

/-- The status values the executor contract allows. -/
def statusOk (d : ADict) : Prop :=
  d.status = some (.str "success") ∨ d.status = some (.str "error") ∨
    d.status = some (.str "timeout")

theorem assocLookup_mem {α : Type} {k : String} {v : α} :
    ∀ {l : List (String × α)}, assocLookup k l = some v → (k, v) ∈ l := by
  intro l
  induction l with
  | nil => intro h; exact Option.noConfusion h
  | cons p rest ih =>
    intro h
    by_cases hp : p.1 = k
    · simp only [assocLookup, hp, if_true] at h
      have hpv : p = (k, v) := by
        rcases p with ⟨a, b⟩
        simp at hp h
        rw [hp, h]
      rw [← hpv]
      exact List.mem_cons_self p rest
    · simp only [assocLookup, hp, if_false] at h
      exact List.mem_cons_of_mem p (ih h)

theorem get_cached_result_some_mem {now : Int} {key : String} {c : CacheState}
    {v : ADict} {c' : CacheState} (h : get_cached_result now key c = (some v, c')) :
    (key, v) ∈ c.entries := by
  unfold get_cached_result at h
  split at h
  · simp at h
  next w hl =>
    split at h
    next exp ht =>
      split at h
      · simp at h
      · simp at h
        exact h.1 ▸ assocLookup_mem hl
    next ht =>
      simp at h
      exact h.1 ▸ assocLookup_mem hl

theorem call_result_ok {cb : CircuitBreaker} {now : Int} {func : Except PyExn ADict}
    {v : ADict} (h : (cb.call now func).result = .ok v) : func = .ok v := by
  unfold CircuitBreaker.call at h
  repeat' split at h
  all_goals simp_all

theorem body_ok_status (cb? : Option CircuitBreaker) (now : Int)
    (ext : Except PyExn String) (v : ADict)
    (h : (_analyze_with_protection_body cb? now ext).result = .ok v) :
    v.status = some (.str "success") ∨ v.status = some (.str "error") := by
  cases cb? with
  | none =>
    simp only [_analyze_with_protection_body] at h
    cases ext with
    | ok t =>
      simp only [_analyze_internal] at h
      simp at h
      rw [← h]
      left
      rfl
    | error e => simp [_analyze_internal] at h
  | some cb =>
    simp only [_analyze_with_protection_body] at h
    cases hco : (cb.call now (_analyze_internal ext)).result with
    | ok w =>
      rw [hco] at h
      simp at h
      have hfunc := call_result_ok hco
      cases ext with
      | ok t =>
        simp only [_analyze_internal] at hfunc
        have hw : visionSuccessDict t = w := by
          simpa using hfunc
        rw [← h, ← hw]
        left
        rfl
      | error e => simp [_analyze_internal] at hfunc
    | error e =>
      rw [hco] at h
      cases e with
      | breakerOpen =>
        simp at h
        rw [← h]
        right
        rfl
      | customTimeout m => simp at h
      | builtinTimeout m => simp at h
      | retryable m => simp at h
      | other m => simp at h

theorem retryRun_ok_status (times : Nat → Int) (exts : Nat → Except PyExn String) :
    ∀ (fuel idx : Nat) (cb? : Option CircuitBreaker) (v : ADict),
      (retryRun times exts fuel idx cb?).result = .ok v →
      v.status = some (.str "success") ∨ v.status = some (.str "error") := by
  intro fuel
  induction fuel with
  | zero =>
    intro idx cb? v h
    simp [retryRun] at h
  | succ n ih =>
    intro idx cb? v h
    simp only [retryRun] at h
    split at h
    next w heq =>
      simp at h
      rw [← h]
      exact body_ok_status cb? (times idx) (exts idx) w heq
    next e heq =>
      by_cases hr : (e.isRetryable = true ∧ 1 ≤ n)
      · rw [if_pos hr] at h
        exact ih (idx + 1) _ v h
      · rw [if_neg hr] at h
        simp at h

theorem protection_ok_status (hangs : Bool) (maxAttempts : Nat)
    (cb? : Option CircuitBreaker) (times : Nat → Int)
    (exts : Nat → Except PyExn String) (v : ADict)
    (h : (_analyze_with_protection hangs maxAttempts cb? times exts).result = .ok v) :
    v.status = some (.str "success") ∨ v.status = some (.str "error") := by
  unfold _analyze_with_protection at h
  cases hangs with
  | true => simp at h
  | false => exact retryRun_ok_status times exts maxAttempts 0 cb? v h

theorem VisionResult_validate_status {d dump : ADict}
    (h : VisionResult.validate d = some dump) : dump.status = d.status := by
  unfold VisionResult.validate at h
  split at h
  · simp at h
    rw [← h]
  · exact Option.noConfusion h

theorem analyzeMissPath_statusOk (cacheEnabled : Bool) (maxCacheSize : Nat)
    (cacheTTL : Int) (hangs : Bool) (maxAttempts : Nat) (now : Int)
    (times : Nat → Int) (exts : Nat → Except PyExn String) (key : String)
    (c1 : CacheState) (breaker? : Option CircuitBreaker) :
    statusOk (analyzeMissPath cacheEnabled maxCacheSize cacheTTL hangs maxAttempts now
      times exts key c1 breaker?).result := by
  unfold analyzeMissPath
  split
  next result cbOut nCalls heq =>
    have hres : (_analyze_with_protection hangs maxAttempts breaker? times exts).result =
        .ok result := by rw [heq]
    have hs := protection_ok_status hangs maxAttempts breaker? times exts result hres
    cases hval : VisionResult.validate result with
    | some dump =>
      have hst := VisionResult_validate_status hval
      simp only [hval]
      rcases hs with hs | hs
      · exact Or.inl (by rw [hst, hs])
      · exact Or.inr (Or.inl (by rw [hst, hs]))
    | none =>
      simp only [hval]
      rcases hs with hs | hs
      · exact Or.inl hs
      · exact Or.inr (Or.inl hs)
  next m cbOut nCalls heq =>
    exact Or.inr (Or.inr rfl)
  next e cbOut nCalls heq hne =>
    exact Or.inr (Or.inl rfl)

/-- C2: whatever the cache state (with the invariant that only success
results are ever cached), the breaker state, and the behaviour of the
external call on every attempt — returning, raising any exception, or
hanging past the timeout budget — `VisionAgent.analyze` returns a dictionary
whose status is `success`, `error` or `timeout` (it is a total function: no
exception propagates), and the agent-runner wrapper returns either `None`
(kind not selected) or such a dictionary. -/
theorem vision_analyze_total_status
    (sha256hex md5hex : String → String) (cacheEnabled : Bool) (maxCacheSize : Nat)
    (cacheTTL : Int) (hangs : Bool) (maxAttempts : Nat) (now : Int) (times : Nat → Int)
    (exts : Nat → Except PyExn String) (cache : CacheState)
    (breaker? : Option CircuitBreaker) (img ctx : String)
    (hwf : ∀ p ∈ cache.entries, p.2.status = some (.str "success")) :
    statusOk (VisionAgent.analyze sha256hex md5hex cacheEnabled maxCacheSize cacheTTL
      hangs maxAttempts now times exts cache breaker? img ctx).result ∧
    (∀ (st : AnalysisState) (d : ADict),
      run_vision_agent (fun i c => (VisionAgent.analyze sha256hex md5hex cacheEnabled
        maxCacheSize cacheTTL hangs maxAttempts now times exts cache breaker? i c).result)
        st = some d → statusOk d) := by
  have hmain : ∀ (i c : String),
      statusOk (VisionAgent.analyze sha256hex md5hex cacheEnabled maxCacheSize cacheTTL
        hangs maxAttempts now times exts cache breaker? i c).result := by
    intro i c
    unfold VisionAgent.analyze
    cases cacheEnabled with
    | false =>
      exact analyzeMissPath_statusOk false maxCacheSize cacheTTL hangs maxAttempts now
        times exts _ cache breaker?
    | true =>
      cases hget : get_cached_result now
          (get_cache_key sha256hex md5hex i "vision" c) cache with
      | mk o c1 =>
        cases o with
        | none =>
          simp only [if_true, hget]
          exact analyzeMissPath_statusOk true maxCacheSize cacheTTL hangs maxAttempts now
            times exts _ c1 breaker?
        | some cached =>
          simp only [if_true, hget]
          by_cases ht : cached.truthy = true
          · rw [if_pos ht]
            have hmem := get_cached_result_some_mem hget
            exact Or.inl (hwf _ hmem)
          · rw [if_neg ht]
            exact analyzeMissPath_statusOk true maxCacheSize cacheTTL hangs maxAttempts
              now times exts _ c1 breaker?
  refine ⟨hmain img ctx, ?_⟩
  intro st d hd
  unfold run_vision_agent at hd
  by_cases hsel : "vision" ∈ st.agents_to_run
  · rw [if_pos hsel] at hd
    have hdd := Option.some.inj hd
    rw [← hdd]
    exact hmain st.image_base64 st.context
  · rw [if_neg hsel] at hd
    exact Option.noConfusion hd

/-- Witness for C2 on an empty cache, no breaker, and an external call that
raises a non-retryable exception on every attempt. -/
theorem vision_analyze_total_status_witness :
    (∀ p ∈ ({} : CacheState).entries, p.2.status = some (PyVal.str "success")) ∧
    statusOk (VisionAgent.analyze (fun s => s) (fun s => s) true 500 3600 false 3 0
      (fun _ => 0) (fun _ => .error (.other "boom")) {} none "img" "ctx").result := by
  refine ⟨by simp, ?_⟩
  exact (vision_analyze_total_status (fun s => s) (fun s => s) true 500 3600 false 3 0
    (fun _ => 0) (fun _ => .error (.other "boom")) {} none "img" "ctx" (by simp)).1

/- ## LRU lemmas -/

theorem assocLookup_none_forall {α : Type} {k : String} :
    ∀ {l : List (String × α)}, assocLookup k l = none → ∀ p ∈ l, ¬ (p.1 = k) := by
  intro l
  induction l with
  | nil => intro _ p hp; exact absurd hp (List.not_mem_nil p)
  | cons q rest ih =>
    intro h p hp
    by_cases hq : q.1 = k
    · simp [assocLookup, hq] at h
    · simp only [assocLookup, hq, if_false] at h
      rcases List.mem_cons.mp hp with hp | hp
      · rw [hp]; exact hq
      · exact ih h p hp

theorem assocErase_cons_self {α : Type} {p : String × α} {t : List (String × α)}
    (hnodup : ((p :: t).map Prod.fst).Nodup) : assocErase p.1 (p :: t) = t := by
  have hnotin : ∀ q ∈ t, ¬ (q.1 = p.1) := by
    intro q hq hc
    have := (List.nodup_cons.mp hnodup).1
    exact this (hc ▸ List.mem_map_of_mem Prod.fst hq)
  have ht : assocErase p.1 t = t := assocErase_of_forall_ne hnotin
  simpa [assocErase, List.filter_cons] using ht

theorem assocErase_mem {α : Type} {k : String} {q : String × α} {l : List (String × α)}
    (h : q ∈ assocErase k l) : q ∈ l ∧ ¬ (q.1 = k) := by
  unfold assocErase at h
  have := List.mem_filter.mp h
  refine ⟨this.1, ?_⟩
  have hb := this.2
  simpa using hb

theorem assocLookup_moveToEnd_ne {α : Type} {k' k : String} (l : List (String × α))
    (h : ¬ k' = k) : assocLookup k' (moveToEnd k l) = assocLookup k' l := by
  unfold moveToEnd
  cases hc : assocLookup k l with
  | none => rfl
  | some v =>
    cases hc' : assocLookup k' (assocErase k l) with
    | some w =>
      rw [assocLookup_append_of_some hc']
      rw [assocLookup_assocErase_ne l h] at hc'
      rw [hc']
    | none =>
      rw [assocLookup_append_of_none hc']
      rw [assocLookup_assocErase_ne l h] at hc'
      rw [hc']
      have hk : ¬ k = k' := fun hc'' => h hc''.symm
      simp [assocLookup, hk]

theorem get_cached_result_hit {now : Int} {k : String} {c : CacheState} {v : ADict}
    (h : (get_cached_result now k c).1 = some v) :
    assocLookup k c.entries = some v ∧
    (get_cached_result now k c).2 = ⟨moveToEnd k c.entries, c.ttl⟩ := by
  cases hl : assocLookup k c.entries with
  | none =>
    exfalso
    have : get_cached_result now k c = (none, c) := by
      simp only [get_cached_result, hl]
    rw [this] at h
    exact Option.noConfusion h
  | some w =>
    cases ht : assocLookup k c.ttl with
    | some exp =>
      by_cases hexp : now > exp
      · exfalso
        have : get_cached_result now k c =
            (none, ⟨assocErase k c.entries, assocErase k c.ttl⟩) := by
          simp only [get_cached_result, hl, ht]
          rw [if_pos hexp]
        rw [this] at h
        exact Option.noConfusion h
      · have hres : get_cached_result now k c =
            (some w, ⟨moveToEnd k c.entries, c.ttl⟩) := by
          simp only [get_cached_result, hl, ht]
          rw [if_neg hexp]
        rw [hres] at h
        have hw : w = v := by simpa using h
        exact ⟨by rw [hw], by rw [hres]⟩
    | none =>
      have hres : get_cached_result now k c =
          (some w, ⟨moveToEnd k c.entries, c.ttl⟩) := by
        simp only [get_cached_result, hl, ht]
      rw [hres] at h
      have hw : w = v := by simpa using h
      exact ⟨by rw [hw], by rw [hres]⟩

theorem assocLookup_forall_none {α : Type} {k : String} {l : List (String × α)}
    (h : ∀ p ∈ l, ¬ (p.1 = k)) : assocLookup k l = none := by
  induction l with
  | nil => rfl
  | cons p rest ih =>
    have hp : ¬ p.1 = k := h p (List.mem_cons_self p rest)
    simp only [assocLookup, hp, if_false]
    exact ih fun q hq => h q (List.mem_cons_of_mem p hq)

theorem assocErase_length_ge {α : Type} {k : String} {l : List (String × α)}
    (hnodup : (l.map Prod.fst).Nodup) : l.length ≤ (assocErase k l).length + 1 := by
  induction l with
  | nil => simp [assocErase]
  | cons p rest ih =>
    have hnd : p.1 ∉ rest.map Prod.fst ∧ (rest.map Prod.fst).Nodup := by
      rw [List.map_cons] at hnodup
      exact List.nodup_cons.mp hnodup
    by_cases hp : p.1 = k
    · have hrest : assocErase k rest = rest := by
        apply assocErase_of_forall_ne
        intro q hq hc
        apply hnd.1
        rw [hp, ← hc]
        exact List.mem_map_of_mem Prod.fst hq
      have hdrop : assocErase k (p :: rest) = assocErase k rest := by
        simp [assocErase, List.filter_cons, hp]
      rw [hdrop, hrest]
      simp
    · have hkeep : assocErase k (p :: rest) = p :: assocErase k rest := by
        simp [assocErase, List.filter_cons, hp]
      rw [hkeep]
      simp only [List.length_cons]
      have := ih hnd.2
      omega

theorem assocErase_keys_nodup {α : Type} {k : String} {l : List (String × α)}
    (hnodup : (l.map Prod.fst).Nodup) : ((assocErase k l).map Prod.fst).Nodup := by
  have hsub : List.Sublist ((assocErase k l).map Prod.fst) (l.map Prod.fst) :=
    List.Sublist.map Prod.fst (List.filter_sublist l)
  exact List.Nodup.sublist hsub hnodup

/-- C6: with the cache at its configured maximum size (at least 2), storing a
new distinct key evicts exactly the least-recently-used entry — the resulting
entry list is the old one minus its head, with the new entry appended in
most-recent position — and a `get` hit on any existing unexpired entry first
refreshes its recency so that the entry survives the next insertion of a new
distinct key. -/
theorem lru_eviction_and_refresh (maxSize : Nat) (now1 now2 now3 ttlS1 ttlS2 : Int)
    (c : CacheState) (newKey k : String) (newVal v : ADict)
    (hmax : 2 ≤ maxSize) (hlen : c.entries.length = maxSize)
    (hnodup : (c.entries.map Prod.fst).Nodup)
    (hnew : assocLookup newKey c.entries = none) :
    ((set_cached_result maxSize now1 ttlS1 newKey newVal c).entries =
      c.entries.tail ++ [(newKey, newVal)]) ∧
    ((get_cached_result now2 k c).1 = some v →
      assocLookup k ((set_cached_result maxSize now3 ttlS2 newKey newVal
        (get_cached_result now2 k c).2).entries) = some v) := by
  have hforall := assocLookup_none_forall hnew
  constructor
  · cases hent : c.entries with
    | nil =>
      rw [hent] at hlen
      simp at hlen
      omega
    | cons p t =>
      rcases p with ⟨k0, v0⟩
      rw [hent] at hlen hnodup hforall
      have hcap : maxSize ≤ ((k0, v0) :: t).length := le_of_eq hlen.symm
      have herase : assocErase k0 ((k0, v0) :: t) = t :=
        assocErase_cons_self (p := (k0, v0)) hnodup
      have hnewt : assocLookup newKey t = none := by
        apply assocLookup_forall_none
        intro q hq
        exact hforall q (List.mem_cons_of_mem _ hq)
      have hset : assocSet newKey newVal t = t ++ [(newKey, newVal)] := by
        unfold assocSet
        rw [hnewt]
        rfl
      have hlook : assocLookup newKey (t ++ [(newKey, newVal)]) = some newVal := by
        rw [assocLookup_append_of_none hnewt]
        simp [assocLookup]
      have herase2 : assocErase newKey (t ++ [(newKey, newVal)]) = t := by
        have h1 : assocErase newKey t = t :=
          assocErase_of_forall_ne (assocLookup_none_forall hnewt)
        simp only [assocErase, List.filter_append] at h1 ⊢
        rw [h1]
        simp
      unfold set_cached_result
      rw [hent, if_pos hcap]
      simp only [List.head?, herase, hset]
      unfold moveToEnd
      rw [hlook, herase2]
      rfl
  · intro hget
    rcases get_cached_result_hit hget with ⟨hl, hc2⟩
    rw [hc2]
    have hkne : ¬ (k = newKey) := by
      intro hc
      rw [hc, hnew] at hl
      exact Option.noConfusion hl
    have hmv : moveToEnd k c.entries = assocErase k c.entries ++ [(k, v)] := by
      unfold moveToEnd
      rw [hl]
    cases hE : assocErase k c.entries with
    | nil =>
      exfalso
      have := assocErase_length_ge (k := k) hnodup
      rw [hE, hlen] at this
      simp at this
      omega
    | cons e0 E' =>
      rcases e0 with ⟨ek, ev⟩
      have hmemE : ∀ q ∈ (ek, ev) :: E', q ∈ c.entries ∧ ¬ (q.1 = k) := by
        intro q hq
        exact assocErase_mem (hE ▸ hq)
      have hek := hmemE (ek, ev) (List.mem_cons_self _ _)
      have hEnodup : (((ek, ev) :: E').map Prod.fst).Nodup := by
        rw [← hE]
        exact assocErase_keys_nodup hnodup
      have hnd : (ek, ev).1 ∉ E'.map Prod.fst ∧ (E'.map Prod.fst).Nodup := by
        rw [List.map_cons] at hEnodup
        exact List.nodup_cons.mp hEnodup
      have hXforall : ∀ q ∈ E' ++ [(k, v)], ¬ (q.1 = ek) := by
        intro q hq
        rcases List.mem_append.mp hq with hq | hq
        · intro hc
          apply hnd.1
          show ek ∈ E'.map Prod.fst
          rw [← hc]
          exact List.mem_map_of_mem Prod.fst hq
        · have hqkv : q = (k, v) := by simpa using hq
          rw [hqkv]
          intro hc
          exact hek.2 hc.symm
      have h1 : assocErase ek ((ek, ev) :: (E' ++ [(k, v)])) = E' ++ [(k, v)] := by
        have hX : assocErase ek (E' ++ [(k, v)]) = E' ++ [(k, v)] :=
          assocErase_of_forall_ne hXforall
        simpa [assocErase, List.filter_cons] using hX
      have hnewE : assocLookup newKey (E' ++ [(k, v)]) = none := by
        apply assocLookup_forall_none
        intro q hq
        rcases List.mem_append.mp hq with hq | hq
        · exact hforall q (hmemE q (List.mem_cons_of_mem _ hq)).1
        · have hqkv : q = (k, v) := by simpa using hq
          rw [hqkv]
          exact hkne
      have h2 : assocSet newKey newVal (E' ++ [(k, v)]) =
          (E' ++ [(k, v)]) ++ [(newKey, newVal)] := by
        unfold assocSet
        rw [hnewE]
        rfl
      have hcap : maxSize ≤ ((ek, ev) :: (E' ++ [(k, v)])).length := by
        have := assocErase_length_ge (k := k) hnodup
        rw [hE, hlen] at this
        simp at this ⊢
        omega
      have hstep : (set_cached_result maxSize now3 ttlS2 newKey newVal
          ⟨(ek, ev) :: (E' ++ [(k, v)]), c.ttl⟩).entries =
          moveToEnd newKey
            (assocSet newKey newVal (assocErase ek ((ek, ev) :: (E' ++ [(k, v)])))) := by
        unfold set_cached_result
        rw [if_pos hcap]
        rfl
      have hE'none : assocLookup k E' = none := by
        apply assocLookup_forall_none
        intro q hq
        exact (hmemE q (List.mem_cons_of_mem _ hq)).2
      have hkv : assocLookup k (E' ++ [(k, v)]) = some v := by
        rw [assocLookup_append_of_none hE'none]
        simp [assocLookup]
      have hfinal : assocLookup k ((E' ++ [(k, v)]) ++ [(newKey, newVal)]) = some v :=
        assocLookup_append_of_some hkv
      rw [hmv, hE]
      have hcons : ((ek, ev) :: E') ++ [(k, v)] = (ek, ev) :: (E' ++ [(k, v)]) := rfl
      rw [hcons, hstep, h1, h2]
      rw [assocLookup_moveToEnd_ne _ hkne]
      exact hfinal

/-- Witness for C6 at capacity 2: keys `a`, `b` cached; inserting `c` evicts
`a`; but a get hit on `a` first protects it, so `b` is evicted instead. -/
theorem lru_eviction_and_refresh_witness :
    2 ≤ 2 ∧
    (⟨[("a", visionSuccessDict "A"), ("b", visionSuccessDict "B")], []⟩ :
      CacheState).entries.length = 2 ∧
    ((⟨[("a", visionSuccessDict "A"), ("b", visionSuccessDict "B")], []⟩ :
      CacheState).entries.map Prod.fst).Nodup ∧
    assocLookup "c" (⟨[("a", visionSuccessDict "A"), ("b", visionSuccessDict "B")], []⟩ :
      CacheState).entries = none ∧
    ((set_cached_result 2 0 3600 "c" (visionSuccessDict "C")
        ⟨[("a", visionSuccessDict "A"), ("b", visionSuccessDict "B")], []⟩).entries =
      (⟨[("a", visionSuccessDict "A"), ("b", visionSuccessDict "B")], []⟩ :
        CacheState).entries.tail ++ [("c", visionSuccessDict "C")]) ∧
    ((get_cached_result 5 "a"
        ⟨[("a", visionSuccessDict "A"), ("b", visionSuccessDict "B")], []⟩).1 =
      some (visionSuccessDict "A")) ∧
    assocLookup "a" ((set_cached_result 2 6 3600 "c" (visionSuccessDict "C")
        (get_cached_result 5 "a"
          ⟨[("a", visionSuccessDict "A"), ("b", visionSuccessDict "B")], []⟩).2).entries) =
      some (visionSuccessDict "A") := by
  refine ⟨by decide, by decide, by decide, by decide, ?_, by decide, ?_⟩
  · exact (lru_eviction_and_refresh 2 0 5 6 3600 3600
      ⟨[("a", visionSuccessDict "A"), ("b", visionSuccessDict "B")], []⟩ "c" "a"
      (visionSuccessDict "C") (visionSuccessDict "A") (by decide) (by decide)
      (by decide) (by decide)).1
  · exact (lru_eviction_and_refresh 2 0 5 6 3600 3600
      ⟨[("a", visionSuccessDict "A"), ("b", visionSuccessDict "B")], []⟩ "c" "a"
      (visionSuccessDict "C") (visionSuccessDict "A") (by decide) (by decide)
      (by decide) (by decide)).2 (by decide)

/- ## Cache idempotence (C7) -/

theorem assocLookup_set_cached_self (maxSize : Nat) (now ttlS : Int) (k : String)
    (v : ADict) (c : CacheState) :
    assocLookup k (set_cached_result maxSize now ttlS k v c).entries = some v := by
  unfold set_cached_result
  apply assocLookup_moveToEnd_self
  apply assocLookup_assocSet_self

theorem ttl_set_cached_self (maxSize : Nat) (now ttlS : Int) (k : String)
    (v : ADict) (c : CacheState) :
    assocLookup k (set_cached_result maxSize now ttlS k v c).ttl = some (now + ttlS) := by
  unfold set_cached_result
  apply assocLookup_assocSet_self

/-- The `model_dump()` of a validated vision success result. -/
def visionSuccessDump (t : String) : ADict :=
  { agent := some (.str "vision"), status := some (.str "success"),
    analysis := some (.str t), confidence := some (.str "high"),
    error := some .null, has_text := none }

/-- C7, amended: for a fixed `(payload, context)` whose key is not yet cached,
when the first execution's initial attempt succeeds (closed breaker, external
call returns text, no timeout), a second execution within the TTL window
returns a dictionary agreeing with the first on `agent`, `status`, `analysis`
and `confidence`, and exactly one underlying external call is made across the
two executions — but the two dictionaries are not identical: the first is the
Pydantic dump (including a present `error: None` key), while the second is
the raw pre-validation dictionary stored in the cache. -/
theorem cache_idempotence_content (sha256hex md5hex : String → String)
    (maxC : Nat) (ttlS : Int) (m : Nat) (now1 now2 : Int)
    (times : Nat → Int) (exts : Nat → Except PyExn String)
    (hangs2 : Bool) (times2 : Nat → Int) (exts2 : Nat → Except PyExn String) (m2 : Nat)
    (cache : CacheState) (cb : CircuitBreaker) (b2 : Option CircuitBreaker)
    (img ctx t : String)
    (hclosed : cb.state = .closed)
    (hexts0 : exts 0 = .ok t)
    (hmiss : assocLookup (get_cache_key sha256hex md5hex img "vision" ctx)
      cache.entries = none)
    (hfresh : ¬ (now2 > now1 + ttlS)) :
    (VisionAgent.analyze sha256hex md5hex true maxC ttlS false (m + 1) now1 times exts
        cache (some cb) img ctx).result = visionSuccessDump t ∧
    (VisionAgent.analyze sha256hex md5hex true maxC ttlS false (m + 1) now1 times exts
        cache (some cb) img ctx).extCalls = 1 ∧
    (VisionAgent.analyze sha256hex md5hex true maxC ttlS hangs2 m2 now2 times2 exts2
        (VisionAgent.analyze sha256hex md5hex true maxC ttlS false (m + 1) now1 times
          exts cache (some cb) img ctx).cache b2 img ctx).result =
      visionSuccessDict t ∧
    (VisionAgent.analyze sha256hex md5hex true maxC ttlS hangs2 m2 now2 times2 exts2
        (VisionAgent.analyze sha256hex md5hex true maxC ttlS false (m + 1) now1 times
          exts cache (some cb) img ctx).cache b2 img ctx).extCalls = 0 := by
  have hnotOpen : ¬ (cb.state = .opened) := by
    rw [hclosed]
    intro hc
    exact CircuitState.noConfusion hc
  have hbody : _analyze_with_protection_body (some cb) (times 0) (exts 0) =
      ⟨.ok (visionSuccessDict t), some cb._on_success, 1⟩ := by
    rw [hexts0]
    simp only [_analyze_with_protection_body, _analyze_internal]
    have hcall := call_not_open_success cb (times 0) (visionSuccessDict t) hnotOpen
    simp only [hcall]
    rfl
  have hprot : _analyze_with_protection false (m + 1) (some cb) times exts =
      ⟨.ok (visionSuccessDict t), some cb._on_success, 1⟩ := by
    unfold _analyze_with_protection
    simp only [retryRun, hbody]
    rfl
  have hget1 : get_cached_result now1 (get_cache_key sha256hex md5hex img "vision" ctx)
      cache = (none, cache) := by
    simp only [get_cached_result, hmiss]
  have hval : VisionResult.validate (visionSuccessDict t) =
      some (visionSuccessDump t) := rfl
  have ha1 : VisionAgent.analyze sha256hex md5hex true maxC ttlS false (m + 1) now1
      times exts cache (some cb) img ctx =
      ⟨visionSuccessDump t,
        set_cached_result maxC now1 ttlS
          (get_cache_key sha256hex md5hex img "vision" ctx) (visionSuccessDict t) cache,
        some cb._on_success, 1⟩ := by
    unfold VisionAgent.analyze
    simp only [hget1]
    unfold analyzeMissPath
    simp only [hprot, hval]
    rfl
  have hlook2 : assocLookup (get_cache_key sha256hex md5hex img "vision" ctx)
      (set_cached_result maxC now1 ttlS
        (get_cache_key sha256hex md5hex img "vision" ctx) (visionSuccessDict t)
        cache).entries = some (visionSuccessDict t) :=
    assocLookup_set_cached_self maxC now1 ttlS _ _ cache
  have httl2 : assocLookup (get_cache_key sha256hex md5hex img "vision" ctx)
      (set_cached_result maxC now1 ttlS
        (get_cache_key sha256hex md5hex img "vision" ctx) (visionSuccessDict t)
        cache).ttl = some (now1 + ttlS) :=
    ttl_set_cached_self maxC now1 ttlS _ _ cache
  have hget2 : (get_cached_result now2
      (get_cache_key sha256hex md5hex img "vision" ctx)
      (set_cached_result maxC now1 ttlS
        (get_cache_key sha256hex md5hex img "vision" ctx) (visionSuccessDict t)
        cache)).1 = some (visionSuccessDict t) := by
    simp only [get_cached_result, hlook2, httl2]
    rw [if_neg hfresh]
  have htruthy : (visionSuccessDict t).truthy = true := by
    apply decide_eq_true
    intro hc
    have : (visionSuccessDict t).agent = ADict.empty.agent := by rw [hc]
    exact Option.noConfusion this
  have ha2 : VisionAgent.analyze sha256hex md5hex true maxC ttlS hangs2 m2 now2 times2
      exts2 (set_cached_result maxC now1 ttlS
        (get_cache_key sha256hex md5hex img "vision" ctx) (visionSuccessDict t) cache)
      b2 img ctx =
      ⟨visionSuccessDict t,
        (get_cached_result now2 (get_cache_key sha256hex md5hex img "vision" ctx)
          (set_cached_result maxC now1 ttlS
            (get_cache_key sha256hex md5hex img "vision" ctx) (visionSuccessDict t)
            cache)).2, b2, 0⟩ := by
    unfold VisionAgent.analyze
    simp only [eq_self_iff_true, if_true, hget2]
    rfl
  rw [ha1]
  refine ⟨rfl, rfl, ?_, ?_⟩
  · show (VisionAgent.analyze sha256hex md5hex true maxC ttlS hangs2 m2 now2 times2 exts2
        (set_cached_result maxC now1 ttlS
          (get_cache_key sha256hex md5hex img "vision" ctx) (visionSuccessDict t) cache)
        b2 img ctx).result = visionSuccessDict t
    rw [ha2]
  · show (VisionAgent.analyze sha256hex md5hex true maxC ttlS hangs2 m2 now2 times2 exts2
        (set_cached_result maxC now1 ttlS
          (get_cache_key sha256hex md5hex img "vision" ctx) (visionSuccessDict t) cache)
        b2 img ctx).extCalls = 0
    rw [ha2]

/-- Witness for C7, amended, at a concrete instance. -/
theorem cache_idempotence_content_witness :
    (⟨5, 60, .closed, 0, none, 0⟩ : CircuitBreaker).state = .closed ∧
    ((fun _ : Nat => (Except.ok "scene" : Except PyExn String)) 0 = .ok "scene") ∧
    assocLookup (get_cache_key (fun s => s) (fun s => s) "img" "vision" "")
      ({} : CacheState).entries = none ∧
    ¬ ((10 : Int) > 0 + 3600) ∧
    (VisionAgent.analyze (fun s => s) (fun s => s) true 500 3600 false 3 0 (fun _ => 0)
        (fun _ => .ok "scene") {} (some ⟨5, 60, .closed, 0, none, 0⟩) "img" "").extCalls = 1 ∧
    (VisionAgent.analyze (fun s => s) (fun s => s) true 500 3600 false 2 10 (fun _ => 0)
        (fun _ => .ok "ignored")
        (VisionAgent.analyze (fun s => s) (fun s => s) true 500 3600 false 3 0
          (fun _ => 0) (fun _ => .ok "scene") {}
          (some ⟨5, 60, .closed, 0, none, 0⟩) "img" "").cache none "img" "").extCalls = 0 := by
  refine ⟨rfl, rfl, rfl, by decide, ?_, ?_⟩
  · exact (cache_idempotence_content (fun s => s) (fun s => s) 500 3600 2 0 10
      (fun _ => 0) (fun _ => .ok "scene") false (fun _ => 0) (fun _ => .ok "ignored") 2
      {} ⟨5, 60, .closed, 0, none, 0⟩ none "img" "" "scene" rfl rfl rfl
      (by decide)).2.1
  · exact (cache_idempotence_content (fun s => s) (fun s => s) 500 3600 2 0 10
      (fun _ => 0) (fun _ => .ok "scene") false (fun _ => 0) (fun _ => .ok "ignored") 2
      {} ⟨5, 60, .closed, 0, none, 0⟩ none "img" "" "scene" rfl rfl rfl
      (by decide)).2.2.2

/-- C7, counterexample: at a concrete instance the two executions return
different dictionaries — the first carries the Pydantic-defaulted
`error: None` key, the cached second does not — so the contents are not
identical even though the underlying call runs once. -/
theorem cache_idempotence_content_differs :
    ¬ ((VisionAgent.analyze (fun s => s) (fun s => s) true 500 3600 false 3 0
        (fun _ => 0) (fun _ => .ok "scene") {} (some ⟨5, 60, .closed, 0, none, 0⟩)
        "img" "").result =
      (VisionAgent.analyze (fun s => s) (fun s => s) true 500 3600 false 2 10
        (fun _ => 0) (fun _ => .ok "ignored")
        (VisionAgent.analyze (fun s => s) (fun s => s) true 500 3600 false 3 0
          (fun _ => 0) (fun _ => .ok "scene") {}
          (some ⟨5, 60, .closed, 0, none, 0⟩) "img" "").cache none "img" "").result) ∧
    (VisionAgent.analyze (fun s => s) (fun s => s) true 500 3600 false 3 0
      (fun _ => 0) (fun _ => .ok "scene") {} (some ⟨5, 60, .closed, 0, none, 0⟩)
      "img" "").result.error = some PyVal.null ∧
    (VisionAgent.analyze (fun s => s) (fun s => s) true 500 3600 false 2 10
      (fun _ => 0) (fun _ => .ok "ignored")
      (VisionAgent.analyze (fun s => s) (fun s => s) true 500 3600 false 3 0
        (fun _ => 0) (fun _ => .ok "scene") {}
        (some ⟨5, 60, .closed, 0, none, 0⟩) "img" "").cache none "img" "").result.error =
      none := by
  refine ⟨by decide, by decide, by decide⟩

end WatchDogs
